import Mathlib

/-!
Shallow embedding of the LSST camera detector-lookup engine of
`python/lsst/sims/coordUtils/LsstCameraUtils.py` (lsst/sims_coordUtils).

External capabilities of the Python code (the afw coordinate transforms,
the astrometric sky-to-pupil conversion, numpy square root, numpy degree
conversion) are parameters of the embedding.  The control flow, the
mutable state updates and the result formation of the source are
mirrored directly; mutable Python lists indexed by point index become
functions `Nat -> _` updated with `Function.update`, and the ghost
fields `visitLog` record, without influencing any result, which
detectors had their per-detector transform applied and to which points.
-/

namespace LsstCameraUtils

/-- Detector type tag: the source only ever distinguishes WAVEFRONT
detectors (the overlap class) from every other detector type. -/
inductive DetType where
  | science
  | wavefront
deriving DecidableEq

/-- A detector as the resolver sees it: a unique name and a type tag.
Its geometry (native-to-pixel transform plus pixel bounding box) enters
the embedding as the separate `inside` capability. -/
structure Detector where
  name : String
  dtype : DetType
deriving DecidableEq

/-- Dynamic value held in an `outputNameList` slot of the source:
Python `None`, a `str`, or a `list` of `str`. -/
inductive PyVal where
  | pnone
  | pstr (s : String)
  | plist (l : List String)
deriving DecidableEq

/-- Is the value a Python list? -/
def PyVal.isPlist : PyVal → Bool
  | PyVal.plist _ => true
  | _ => false

/-- The accumulation step of `_findDetectorsListLSST` for a point marked
`could_be_multiple`: `None` becomes the bare name, a bare name becomes a
two-element list, a list is appended to. -/
def accumulate : PyVal → String → PyVal
  | PyVal.pnone, n => PyVal.pstr n
  | PyVal.pstr s, n => PyVal.plist [s, n]
  | PyVal.plist l, n => PyVal.plist (l ++ [n])

/-- Result of accumulating a whole sequence of names into an initially
empty slot. -/
def renderAcc (l : List String) : PyVal :=
  l.foldl accumulate PyVal.pnone

/-- The single-quote character, written by code point. -/
def squote : String := String.mk [Char.ofNat 39]

/-- Python `repr` of a simple string (no escaping needed for detector names). -/
def pyRepr (s : String) : String := squote ++ s ++ squote

/-- Python `str` of a list of strings, e.g. a two-element list renders as
a bracketed, comma separated sequence of quoted names. -/
def pyStrList (l : List String) : String :=
  "[" ++ String.intercalate ", " (l.map pyRepr) ++ "]"

/-- The final conversion the source applies to each output slot: entries
that are Python lists are replaced by their string rendering. -/
def stringifyEntry : PyVal → PyVal
  | PyVal.plist l => PyVal.pstr (pyStrList l)
  | v => v

/-- Materialize the output array: stringify every slot, in point order.
This is `np.array(outputNameList)` after the list-to-string pass. -/
def finalOut (M : Nat) (out : Nat → PyVal) : List PyVal :=
  (List.range M).map (fun i => stringifyEntry (out i))

/-- Ghost record of one application of a per-detector transform:
the detector, the cached `unfound_pts` value consulted just before,
the freshly recomputed set of unresolved points at that moment, and the
point indices gathered for the transform (`valid_pt_dexes`). -/
structure VisitEntry where
  det : Detector
  cachedUnfound : List Nat
  trueUnfound : List Nat
  validPts : List Nat
deriving DecidableEq

/-- The mutable state of `_findDetectorsListLSST`: output slots,
`chip_has_found` (as a Boolean), `checked_detectors`, the
`update_unfound` flag with its cached `unfound_pts`, and the ghost
visitation log. -/
structure RSt where
  out : Nat → PyVal
  found : Nat → Bool
  checked : List Detector
  updateUnfound : Bool
  unfound : List Nat
  visitLog : List VisitEntry

/-- `np.where(chip_has_found < 0)[0]`: the ascending list of point
indices not yet resolved. -/
def unfoundPts (M : Nat) (found : Nat → Bool) : List Nat :=
  (List.range M).filter (fun i => ! found i)

/-- `could_be_multiple`: a point may match several chips when multiple
chips are allowed and some candidate detector of the point is a
wavefront detector. -/
def couldBeMultiple (detLists : Nat → List Detector) (allowMult : Bool) (i : Nat) : Bool :=
  allowMult && (detLists i).any (fun d => d.dtype == DetType.wavefront)

/-- Initial `chip_has_found` marking: points with an empty candidate
list need no search and start resolved. -/
def initFound (detLists : Nat → List Detector) (i : Nat) : Bool :=
  (detLists i).isEmpty

/-- The body of the box-containment loop of the source: test one
gathered point against the current detector and update the state. -/
def testPoint (couldBeMult : Nat → Bool) (inside : Detector → Nat → Bool)
    (det : Detector) (st : RSt) (ix : Nat) : RSt :=
  if inside det ix then
    if couldBeMult ix then
      { st with out := Function.update st.out ix (accumulate (st.out ix) det.name) }
    else
      { st with out := Function.update st.out ix (PyVal.pstr det.name),
                found := Function.update st.found ix true,
                updateUnfound := true }
  else st

/-- The `if update_unfound:` refresh of the cached `unfound_pts`
value. -/
def recomputeStep (M : Nat) (st : RSt) : RSt :=
  if st.updateUnfound then
    { st with unfound := unfoundPts M st.found, updateUnfound := false }
  else st

/-- Application of the per-detector transform to the gathered points:
the ghost log records the visitation, then the containment loop runs
over the gathered point indices. -/
def transformStep (M : Nat) (couldBeMult : Nat → Bool) (inside : Detector → Nat → Bool)
    (det : Detector) (validPtDexes : List Nat) (st : RSt) : RSt :=
  validPtDexes.foldl (testPoint couldBeMult inside det)
    { st with visitLog := st.visitLog ++
        [⟨det, st.unfound, unfoundPts M st.found, validPtDexes⟩] }

/-- Processing of one candidate detector of the current point: skip it
when already considered; otherwise record it, refresh the cached
unresolved list when flagged, return early with the stringified output
when nothing is left unresolved, gather the unresolved points whose
candidate lists hold this detector, and when any exist apply the
detector transform (recorded in the ghost log) and run the containment
loop.  `Sum.inl` is the early return of the source (the returned state
is ghost observation only). -/
def processDetectorAux (M : Nat) (detLists : Nat → List Detector) (couldBeMult : Nat → Bool)
    (inside : Detector → Nat → Bool) (det : Detector) (st2 : RSt) :
    Sum (List PyVal × RSt) RSt :=
  if st2.unfound.isEmpty then Sum.inl (finalOut M st2.out, st2)
  else
    let validPtDexes := st2.unfound.filter (fun ii => det ∈ detLists ii)
    if validPtDexes.isEmpty then Sum.inr st2
    else Sum.inr (transformStep M couldBeMult inside det validPtDexes st2)

def processDetector (M : Nat) (detLists : Nat → List Detector) (couldBeMult : Nat → Bool)
    (inside : Detector → Nat → Bool) (st : RSt) (det : Detector) :
    Sum (List PyVal × RSt) RSt :=
  if det ∈ st.checked then Sum.inr st
  else
    processDetectorAux M detLists couldBeMult inside det
      (recomputeStep M { st with checked := st.checked ++ [det] })

/-- Loop over the candidate detectors of one point, propagating the
early return. -/
def processDetectorList (M : Nat) (detLists : Nat → List Detector) (couldBeMult : Nat → Bool)
    (inside : Detector → Nat → Bool) :
    List Detector → RSt → Sum (List PyVal × RSt) RSt
  | [], st => Sum.inr st
  | det :: rest, st =>
    match processDetector M detLists couldBeMult inside st det with
    | Sum.inl r => Sum.inl r
    | Sum.inr st1 => processDetectorList M detLists couldBeMult inside rest st1

/-- Processing of one point of the outer loop: skip it when it was
already resolved at the start of its iteration, otherwise walk its
candidate list. -/
def processPoint (M : Nat) (detLists : Nat → List Detector) (couldBeMult : Nat → Bool)
    (inside : Detector → Nat → Bool) (st : RSt) (ipt : Nat) : Sum (List PyVal × RSt) RSt :=
  if st.found ipt then Sum.inr st
  else processDetectorList M detLists couldBeMult inside (detLists ipt) st

/-- The outer loop over all point indices. -/
def processPoints (M : Nat) (detLists : Nat → List Detector) (couldBeMult : Nat → Bool)
    (inside : Detector → Nat → Bool) :
    List Nat → RSt → Sum (List PyVal × RSt) RSt
  | [], st => Sum.inr st
  | ipt :: rest, st =>
    match processPoint M detLists couldBeMult inside st ipt with
    | Sum.inl r => Sum.inl r
    | Sum.inr st1 => processPoints M detLists couldBeMult inside rest st1

/-- `_findDetectorsListLSST` together with its final (ghost) state.
`M` is the number of query points, `detLists i` the candidate detector
list of point `i`, `inside det i` the external containment capability:
the native-frame point `i` mapped by the transform of `det` lands in
the pixel bounding box of `det`. -/
def findRun (M : Nat) (detLists : Nat → List Detector) (inside : Detector → Nat → Bool)
    (allowMult : Bool) : List PyVal × RSt :=
  let st0 : RSt :=
    { out := fun _ => PyVal.pnone, found := initFound detLists,
      checked := [], updateUnfound := true, unfound := [], visitLog := [] }
  match processPoints M detLists (couldBeMultiple detLists allowMult) inside (List.range M) st0 with
  | Sum.inl r => r
  | Sum.inr st => (finalOut M st.out, st)

/-- The return value of `_findDetectorsListLSST`: one entry per query
point. -/
def findDetectorsListLSST (M : Nat) (detLists : Nat → List Detector)
    (inside : Detector → Nat → Bool) (allowMult : Bool) : List PyVal :=
  (findRun M detLists inside allowMult).1

/-- Reference resolver following the words of the equivalence claim:
every point is tested against every detector of its own candidate list,
point by point, with the same result-formation rules (a point that is
not multi-eligible takes the first containing candidate as a Single
result; a multi-eligible point accumulates every containing candidate
in candidate-list order), and the same final serialization. -/
def exhaustiveFind (M : Nat) (detLists : Nat → List Detector)
    (inside : Detector → Nat → Bool) (allowMult : Bool) : List PyVal :=
  (List.range M).map (fun i =>
    let containing := (detLists i).filter (fun d => inside d i)
    if couldBeMultiple detLists allowMult i then
      stringifyEntry (renderAcc (containing.map (fun d => d.name)))
    else
      match containing with
      | [] => PyVal.pnone
      | d :: _ => PyVal.pstr d.name)

/-- An axis-aligned box over the rationals, with closed-interval
containment, standing for `afwGeom.Box2D`. -/
structure BoxQ where
  minX : ℚ
  minY : ℚ
  maxX : ℚ
  maxY : ℚ
deriving DecidableEq

/-- Closed-interval containment test of `Box2D.contains`. -/
def BoxQ.containsPt (b : BoxQ) (p : ℚ × ℚ) : Bool :=
  decide (b.minX ≤ p.1) && decide (p.1 ≤ b.maxX) &&
  decide (b.minY ≤ p.2) && decide (p.2 ≤ b.maxY)

/-- One row of `_lsst_pupil_coord_map` joined with `_detector_arr`:
a detector, the pupil coordinates of its center and its bounding
radius. -/
structure PupilEntry where
  det : Detector
  xx : ℚ
  yy : ℚ
  dp : ℚ
deriving DecidableEq

/-- The cached camera-level data of `chipNameFromPupilCoordsLSST`:
the pupil coordinate map (aligned with the detector array) and the
camera bounding box in pupil coordinates. -/
structure CameraModel where
  pupilMap : List PupilEntry
  cameraBox : BoxQ

/-- The radius pre-filter of `chipNameFromPupilCoordsLSST`: all
detectors whose squared center distance to the point is below
`(1.1 * dp) ^ 2`, in detector-array order. -/
def candidateGuess (cm : CameraModel) (p : ℚ × ℚ) : List Detector :=
  (cm.pupilMap.filter (fun e =>
    decide ((p.1 - e.xx) ^ 2 + (p.2 - e.yy) ^ 2 < (11 / 10 * e.dp) ^ 2))).map
    (fun e => e.det)

/-- The candidate list handed to `_findDetectorsListLSST` for point `i`:
empty when the point is outside the camera bounding box, otherwise the
radius pre-filter output. -/
def chipNameValidDets (cm : CameraModel) (pts : List (ℚ × ℚ)) (i : Nat) : List Detector :=
  let p := pts.getD i (0, 0)
  if cm.cameraBox.containsPt p then candidateGuess cm p else []

/-- `chipNameFromPupilCoordsLSST` on a list of pupil points, returning
the resolver output together with the ghost resolver state.
`insideCam det p` is the external exact-containment capability for a
pupil-frame point `p`. -/
def chipNamePtsRun (cm : CameraModel) (insideCam : Detector → ℚ × ℚ → Bool)
    (pts : List (ℚ × ℚ)) (allowMult : Bool) : List PyVal × RSt :=
  findRun pts.length (fun i => chipNameValidDets cm pts i)
    (fun det i => insideCam det (pts.getD i (0, 0))) allowMult

/-- The value `chipNameFromPupilCoordsLSST` computes for a list of
pupil points: one name entry per point. -/
def chipNameFromPupilCoordsLSST (cm : CameraModel) (insideCam : Detector → ℚ × ℚ → Bool)
    (pts : List (ℚ × ℚ)) (allowMult : Bool) : List PyVal :=
  (chipNamePtsRun cm insideCam pts allowMult).1

/-- A Python argument that is either a single scalar or a numpy array. -/
inductive PyArg (α : Type) where
  | scalar (x : α)
  | array (xs : List α)
deriving DecidableEq

/-- The values carried by an argument, a scalar becoming a length-one
list exactly as the source wraps scalars with `np.array([x])`. -/
def argVals {α : Type} : PyArg α → List α
  | PyArg.scalar x => [x]
  | PyArg.array xs => xs

/-- Elementwise map over an argument (numpy broadcasting of a unary
function such as `np.radians`). -/
def argMap {α β : Type} (f : α → β) : PyArg α → PyArg β
  | PyArg.scalar x => PyArg.scalar (f x)
  | PyArg.array xs => PyArg.array (xs.map f)

/-- Modelled from the spec: the external `_validate_inputs` helper of
`lsst.sims.utils.CodeUtilities` (not part of this repository).  Two
scalars are accepted with `are_arrays = False`; two arrays of equal
length are accepted with `are_arrays = True`; arrays of mismatched
length, or a scalar mixed with an array, fail with a validation error
naming the mismatched parameters. -/
def validateInputs {α : Type} (a b : PyArg α) (na nb fname : String) : Except String Bool :=
  match a, b with
  | PyArg.scalar _, PyArg.scalar _ => Except.ok false
  | PyArg.array xs, PyArg.array ys =>
      if xs.length == ys.length then Except.ok true
      else Except.error ("The arrays " ++ na ++ " and " ++ nb ++
        " passed to " ++ fname ++ " need to have the same length")
  | _, _ => Except.error ("The arguments " ++ na ++ " and " ++ nb ++
      " passed to " ++ fname ++ " need to either both be arrays or both be scalars")

/-- Observation metadata as consumed by the source: only the fields the
source inspects are modelled. -/
structure ObsMetadata where
  mjd : Option ℚ
  rotSkyPos : Option ℚ
deriving DecidableEq

/-- `chipNameFromPupilCoordsLSST` at its Python call boundary: inputs
are validated, scalars are wrapped into length-one arrays, and the
result array is returned as is — the source has no scalar unwrapping
path, so even a scalar call yields an array. -/
def chipNameFromPupilCoordsLSSTCall (cm : CameraModel)
    (insideCam : Detector → ℚ × ℚ → Bool)
    (xPupil yPupil : PyArg ℚ) (allowMult : Bool) : Except String (PyArg PyVal) :=
  match validateInputs xPupil yPupil "xPupil" "yPupil" "chipNameFromPupilCoordsLSST" with
  | Except.error e => Except.error e
  | Except.ok _ =>
      let pts := (argVals xPupil).zip (argVals yPupil)
      Except.ok (PyArg.array (chipNameFromPupilCoordsLSST cm insideCam pts allowMult))

/-- The external `_pupilCoordsFromRaDec` capability: epoch, observation
metadata, the four motion parameters and one (ra, dec) pair map to one
pupil coordinate pair. -/
def SkyToPupil : Type :=
  ℚ → ObsMetadata → Option ℚ → Option ℚ → Option ℚ → Option ℚ → ℚ × ℚ → ℚ × ℚ

/-- `_chipNameFromRaDecLSST` (radian interface): validate the inputs,
check the four metadata requirements in source order, convert to pupil
coordinates, resolve chip names, and unwrap a scalar call to the first
entry of the resulting array. -/
def chipNameFromRaDecLSSTRad (cm : CameraModel) (insideCam : Detector → ℚ × ℚ → Bool)
    (skyToPupil : SkyToPupil) (ra dec : PyArg ℚ)
    (pm_ra pm_dec parallax v_rad : Option ℚ)
    (obs : Option ObsMetadata) (epoch : Option ℚ) (allowMult : Bool) :
    Except String (PyArg PyVal) :=
  match validateInputs ra dec "ra" "dec" "chipNameFromRaDecLSST" with
  | Except.error e => Except.error e
  | Except.ok areArrays =>
    match epoch with
    | none => Except.error "You need to pass an epoch into chipName"
    | some ep =>
      match obs with
      | none => Except.error "You need to pass an ObservationMetaData into chipName"
      | some o =>
        if o.mjd.isNone then
          Except.error "You need to pass an ObservationMetaData with an mjd into chipName"
        else if o.rotSkyPos.isNone then
          Except.error "You need to pass an ObservationMetaData with a rotSkyPos into chipName"
        else
          let pts := ((argVals ra).zip (argVals dec)).map
            (skyToPupil ep o pm_ra pm_dec parallax v_rad)
          let ans := chipNameFromPupilCoordsLSST cm insideCam pts allowMult
          if areArrays then Except.ok (PyArg.array ans)
          else Except.ok (PyArg.scalar (ans.getD 0 PyVal.pnone))

/-- `chipNameFromRaDecLSST` (degree interface): convert the proper
motions and the parallax from arcseconds and the coordinates from
degrees (both through external numeric capabilities) and delegate. -/
def chipNameFromRaDecLSSTDeg (cm : CameraModel) (insideCam : Detector → ℚ × ℚ → Bool)
    (skyToPupil : SkyToPupil) (radians radiansFromArcsec : ℚ → ℚ) (ra dec : PyArg ℚ)
    (pm_ra pm_dec parallax v_rad : Option ℚ)
    (obs : Option ObsMetadata) (epoch : Option ℚ) (allowMult : Bool) :
    Except String (PyArg PyVal) :=
  let pm_ra_out := pm_ra.map radiansFromArcsec
  let pm_dec_out := pm_dec.map radiansFromArcsec
  let parallax_out := parallax.map radiansFromArcsec
  chipNameFromRaDecLSSTRad cm insideCam skyToPupil
    (argMap radians ra) (argMap radians dec)
    pm_ra_out pm_dec_out parallax_out v_rad obs epoch allowMult

/-- Modelled from the spec: the external `_validate_inputs_and_chipname`
helper (not part of this repository).  It validates the coordinate
arguments like `_validate_inputs` and normalizes the chip-name argument
to an optional list of names. -/
def validateInputsAndChipname (ra dec : PyArg ℚ) (na nb fname : String)
    (chipName : Option (PyArg String)) : Except String (Bool × Option (List String)) :=
  match validateInputs ra dec na nb fname with
  | Except.error e => Except.error e
  | Except.ok areArrays => Except.ok (areArrays, chipName.map argVals)

/-- `_pixelCoordsFromRaDecLSST` (radian interface).  The conversion of
pupil coordinates and chip names to pixel coordinates is the external
`pixelCoordsFromPupilCoords` capability `pixFromPupil` with an abstract
result type; the chip names handed to it are either the caller-supplied
names or, when absent, the freshly resolved ones (with multiple chips
not allowed, the source default). -/
def pixelCoordsFromRaDecLSSTRad (cm : CameraModel) (insideCam : Detector → ℚ × ℚ → Bool)
    (skyToPupil : SkyToPupil) {ρ : Type}
    (pixFromPupil : List (ℚ × ℚ) → List PyVal → Bool → ρ)
    (ra dec : PyArg ℚ) (pm_ra pm_dec parallax v_rad : Option ℚ)
    (obs : Option ObsMetadata) (chipName : Option (PyArg String))
    (epoch : Option ℚ) (includeDistortion : Bool) : Except String ρ :=
  match validateInputsAndChipname ra dec "ra" "dec" "pixelCoordsFromRaDecLSST" chipName with
  | Except.error e => Except.error e
  | Except.ok (_, chipNameList) =>
    match epoch with
    | none => Except.error "You need to pass an epoch into pixelCoordsFromRaDec"
    | some ep =>
      match obs with
      | none => Except.error "You need to pass an ObservationMetaData into pixelCoordsFromRaDec"
      | some o =>
        if o.mjd.isNone then
          Except.error "You need to pass an ObservationMetaData with an mjd into pixelCoordsFromRaDec"
        else if o.rotSkyPos.isNone then
          Except.error "You need to pass an ObservationMetaData with a rotSkyPos into pixelCoordsFromRaDec"
        else
          let pts := ((argVals ra).zip (argVals dec)).map
            (skyToPupil ep o pm_ra pm_dec parallax v_rad)
          let chipNames : List PyVal :=
            match chipNameList with
            | none => chipNameFromPupilCoordsLSST cm insideCam pts false
            | some l => l.map PyVal.pstr
          Except.ok (pixFromPupil pts chipNames includeDistortion)

/-- `pixelCoordsFromRaDecLSST` (degree interface): converts the motion
parameters and coordinates and delegates — forwarding the constant
epoch 2000 to the radian interface, whatever epoch the caller gave. -/
def pixelCoordsFromRaDecLSSTDeg (cm : CameraModel) (insideCam : Detector → ℚ × ℚ → Bool)
    (skyToPupil : SkyToPupil) {ρ : Type}
    (pixFromPupil : List (ℚ × ℚ) → List PyVal → Bool → ρ)
    (radians radiansFromArcsec : ℚ → ℚ)
    (ra dec : PyArg ℚ) (pm_ra pm_dec parallax v_rad : Option ℚ)
    (obs : Option ObsMetadata) (chipName : Option (PyArg String))
    (epoch : Option ℚ) (includeDistortion : Bool) : Except String ρ :=
  let pm_ra_out := pm_ra.map radiansFromArcsec
  let pm_dec_out := pm_dec.map radiansFromArcsec
  let parallax_out := parallax.map radiansFromArcsec
  pixelCoordsFromRaDecLSSTRad cm insideCam skyToPupil pixFromPupil
    (argMap radians ra) (argMap radians dec)
    pm_ra_out pm_dec_out parallax_out v_rad obs chipName
    (some 2000) includeDistortion

/-- A detector with the pupil-frame coordinates of its four corners,
that is, the output of the external corner extraction and
pixel-to-pupil transform that `_build_lsst_pupil_coord_map` starts
from. -/
structure ChipCorners where
  det : Detector
  c0 : ℚ × ℚ
  c1 : ℚ × ℚ
  c2 : ℚ × ℚ
  c3 : ℚ × ℚ
deriving DecidableEq

/-- One entry of `_build_lsst_pupil_coord_map`: the center is a quarter
of the corner coordinate sums and the radius a quarter of the summed
center-to-corner distances, the square root being the external numpy
capability `sqrt`. -/
def buildEntry (sqrt : ℚ → ℚ) (ch : ChipCorners) : PupilEntry :=
  let xx := 1 / 4 * (ch.c0.1 + ch.c1.1 + ch.c2.1 + ch.c3.1)
  let yy := 1 / 4 * (ch.c0.2 + ch.c1.2 + ch.c2.2 + ch.c3.2)
  let dp := 1 / 4 *
    (sqrt ((xx - ch.c0.1) ^ 2 + (yy - ch.c0.2) ^ 2) +
     sqrt ((xx - ch.c1.1) ^ 2 + (yy - ch.c1.2) ^ 2) +
     sqrt ((xx - ch.c2.1) ^ 2 + (yy - ch.c2.2) ^ 2) +
     sqrt ((xx - ch.c3.1) ^ 2 + (yy - ch.c3.2) ^ 2))
  ⟨ch.det, xx, yy, dp⟩

/-- `_build_lsst_pupil_coord_map`: one entry per detector, in camera
order. -/
def buildPupilCoordMap (sqrt : ℚ → ℚ) (chips : List ChipCorners) : List PupilEntry :=
  chips.map (buildEntry sqrt)

/-- Modelled from the spec: the centroid of the four transformed
corners of a detector. -/
def specCentroid (ch : ChipCorners) : ℚ × ℚ :=
  ((ch.c0.1 + ch.c1.1 + ch.c2.1 + ch.c3.1) / 4,
   (ch.c0.2 + ch.c1.2 + ch.c2.2 + ch.c3.2) / 4)

/-- Modelled from the spec: the Euclidean distance between two points,
through the external square-root capability. -/
def specDist (sqrt : ℚ → ℚ) (p q : ℚ × ℚ) : ℚ :=
  sqrt ((p.1 - q.1) ^ 2 + (p.2 - q.2) ^ 2)

/-- Modelled from the spec: the mean Euclidean distance from the
centroid of a detector to each of its four transformed corners. -/
def specMeanDist (sqrt : ℚ → ℚ) (ch : ChipCorners) : ℚ :=
  (specDist sqrt (specCentroid ch) ch.c0 + specDist sqrt (specCentroid ch) ch.c1 +
   specDist sqrt (specCentroid ch) ch.c2 + specDist sqrt (specCentroid ch) ch.c3) / 4

/-- The detectors of the candidate list of point `i` that were already
considered and geometrically contain the point, in consideration
order. -/
def ccFilter (detLists : Nat → List Detector) (inside : Detector → Nat → Bool)
    (i : Nat) (checked : List Detector) : List Detector :=
  checked.filter (fun d => decide (d ∈ detLists i) && inside d i)

/-- Monotonicity facts between a state and any later state. -/
structure StepFacts (st st' : RSt) : Prop where
  checkedExt : ∃ t, st'.checked = st.checked ++ t
  foundMono : ∀ j, st.found j = true → st'.found j = true

/-- The resolver invariant, maintained by every step of
`_findDetectorsListLSST`. -/
structure Inv (M : Nat) (detLists : Nat → List Detector) (cbm : Nat → Bool)
    (inside : Detector → Nat → Bool) (st : RSt) : Prop where
  checked_nodup : st.checked.Nodup
  coherent : st.updateUnfound = false → st.unfound = unfoundPts M st.found
  empty_found : ∀ i < M, detLists i = [] → st.found i = true
  empty_out : ∀ i < M, detLists i = [] → st.out i = PyVal.pnone
  single_unfound : ∀ i < M, cbm i = false → st.found i = false →
      st.out i = PyVal.pnone ∧ ccFilter detLists inside i st.checked = []
  single_found : ∀ i < M, detLists i ≠ [] → cbm i = false → st.found i = true →
      ∃ d l, ccFilter detLists inside i st.checked = d :: l ∧ st.out i = PyVal.pstr d.name
  multi_found : ∀ i < M, cbm i = true → st.found i = (detLists i).isEmpty
  multi_out : ∀ i < M, detLists i ≠ [] → cbm i = true →
      st.out i = renderAcc ((ccFilter detLists inside i st.checked).map (fun d => d.name))
  log_ok : ∀ e ∈ st.visitLog, e.cachedUnfound = e.trueUnfound ∧ e.cachedUnfound ≠ [] ∧
      e.validPts ≠ [] ∧ ∀ j ∈ e.validPts, j < M ∧ detLists j ≠ []
  log_sub : List.Sublist (st.visitLog.map (fun e => e.det)) st.checked

/-- Facts of the early-return branch, shared by every loop level. -/
def EarlyFacts (M : Nat) (detLists : Nat → List Detector) (cbm : Nat → Bool)
    (inside : Detector → Nat → Bool) (st : RSt) (r : List PyVal) (stE : RSt) : Prop :=
  Inv M detLists cbm inside stE ∧ StepFacts st stE ∧
    (∀ i < M, stE.found i = true) ∧ r = finalOut M stE.out

/-! ### Concrete instances used by witnesses and counterexamples -/

def exDetA : Detector := ⟨"A", DetType.science⟩

def exDetB : Detector := ⟨"B", DetType.science⟩

def exDetC : Detector := ⟨"C", DetType.science⟩

def exDetW1 : Detector := ⟨"W1", DetType.wavefront⟩

def exDetW2 : Detector := ⟨"W2", DetType.wavefront⟩

/-- Candidate lists of a four-point batch on which the resolver and the
per-point exhaustive tester disagree. -/
def exLists : Nat → List Detector := fun i =>
  match i with
  | 0 => [exDetA]
  | 1 => [exDetB, exDetA]
  | 2 => [exDetW2]
  | 3 => [exDetW1, exDetW2]
  | _ => []

/-- Containment (transform plus box test) of the four-point batch:
point 1 lies on detectors A and B, point 3 on both wavefront
detectors. -/
def exInside : Detector → Nat → Bool := fun d i =>
  match d.name, i with
  | "A", 1 => true
  | "B", 1 => true
  | "W1", 3 => true
  | "W2", 3 => true
  | _, _ => false

/-- Candidate lists of a two-point batch where detector B is
encountered during the scan but its transform is never applied. -/
def c3Lists : Nat → List Detector := fun i =>
  match i with
  | 0 => [exDetA, exDetB]
  | 1 => [exDetC]
  | _ => []

def c3Inside : Detector → Nat → Bool := fun d i =>
  match d.name, i with
  | "A", 0 => true
  | _, _ => false

/-- One point whose single candidate is a containing wavefront
detector. -/
def c2Lists : Nat → List Detector := fun i =>
  match i with
  | 0 => [exDetW1]
  | _ => []

def c2Inside : Detector → Nat → Bool := fun d i =>
  match d.name, i with
  | "W1", 0 => true
  | _, _ => false

/-- One point contained in two wavefront detectors. -/
def mLists : Nat → List Detector := fun i =>
  match i with
  | 0 => [exDetW1, exDetW2]
  | _ => []

def mInside : Detector → Nat → Bool := fun d i =>
  match d.name, i with
  | "W1", 0 => true
  | "W2", 0 => true
  | _, _ => false

/-- A one-detector camera model with a generous bounding box. -/
def cmEx : CameraModel :=
  { pupilMap := [⟨exDetA, 0, 0, 1⟩], cameraBox := ⟨-10, -10, 10, 10⟩ }

/-- Exact containment capability that rejects every point. -/
def insideCamEx : Detector → ℚ × ℚ → Bool := fun _ _ => false

/-- A sky-to-pupil conversion that depends on the epoch. -/
def skyEx : SkyToPupil := fun ep _ _ _ _ _ rd => (ep, rd.1 + rd.2)

/-- A pixel conversion capability returning its pupil points. -/
def pixEx : List (ℚ × ℚ) → List PyVal → Bool → List (ℚ × ℚ) := fun pts _ _ => pts

def obsEx : ObsMetadata := ⟨some 51544, some 0⟩

instance exceptDecEq {ε α : Type} [DecidableEq ε] [DecidableEq α] :
    DecidableEq (Except ε α) := fun a b =>
  match a, b with
  | Except.error e1, Except.error e2 =>
      if h : e1 = e2 then Decidable.isTrue (by rw [h])
      else Decidable.isFalse (by intro hc; injection hc; contradiction)
  | Except.ok x, Except.ok y =>
      if h : x = y then Decidable.isTrue (by rw [h])
      else Decidable.isFalse (by intro hc; injection hc; contradiction)
  | Except.error _, Except.ok _ => Decidable.isFalse (by intro hc; cases hc)
  | Except.ok _, Except.error _ => Decidable.isFalse (by intro hc; cases hc)

/-- Whether a pair of arguments passes the shape validation: two
scalars, or two arrays of equal length. -/
def shapesOk {α : Type} : PyArg α → PyArg α → Prop
  | PyArg.scalar _, PyArg.scalar _ => True
  | PyArg.array xs, PyArg.array ys => xs.length = ys.length
  | _, _ => False

/-- One-detector unit-square chip corners used by the C5 witness. -/
def chEx : ChipCorners := ⟨exDetA, (0, 0), (1, 0), (1, 1), (0, 1)⟩

/-! ### Basic lemmas about rendering and the unresolved-point list -/

theorem renderAcc_append (l : List String) (n : String) :
    renderAcc (l ++ [n]) = accumulate (renderAcc l) n := by
  simp [renderAcc, List.foldl_append]

theorem accumulate_ne_pnone (v : PyVal) (n : String) : accumulate v n ≠ PyVal.pnone := by
  cases v <;> simp [accumulate]

theorem foldl_accumulate_ne_pnone (t : List String) (v : PyVal) (hv : v ≠ PyVal.pnone) :
    t.foldl accumulate v ≠ PyVal.pnone := by
  induction t generalizing v with
  | nil => exact hv
  | cons a t ih => exact ih _ (accumulate_ne_pnone v a)

theorem renderAcc_eq_pnone_iff (l : List String) : renderAcc l = PyVal.pnone ↔ l = [] := by
  cases l with
  | nil => simp [renderAcc]
  | cons a t =>
    simp only [renderAcc, List.foldl_cons]
    constructor
    · intro h
      exact absurd h (foldl_accumulate_ne_pnone t _ (accumulate_ne_pnone _ a))
    · intro h
      exact absurd h (by simp)

theorem renderAcc_singleton (n : String) : renderAcc [n] = PyVal.pstr n := rfl

theorem foldl_accumulate_plist (l t : List String) :
    t.foldl accumulate (PyVal.plist l) = PyVal.plist (l ++ t) := by
  induction t generalizing l with
  | nil => simp
  | cons a t ih => simpa [accumulate] using ih (l ++ [a])

theorem renderAcc_cons_cons (a b : String) (t : List String) :
    renderAcc (a :: b :: t) = PyVal.plist (a :: b :: t) := by
  simp [renderAcc, accumulate, foldl_accumulate_plist]

theorem stringifyEntry_eq_pnone_iff (v : PyVal) :
    stringifyEntry v = PyVal.pnone ↔ v = PyVal.pnone := by
  cases v <;> simp [stringifyEntry]

theorem stringifyEntry_not_plist (v : PyVal) : (stringifyEntry v).isPlist = false := by
  cases v <;> simp [stringifyEntry, PyVal.isPlist]

theorem getD_map_range {α : Type} (f : Nat → α) (M i : Nat) (d : α) (hi : i < M) :
    (((List.range M).map f).getD i d) = f i := by
  rw [List.getD_eq_getElem?_getD]
  rw [List.getElem?_map]
  simp [List.getElem?_range hi]

theorem finalOut_getD (M : Nat) (out : Nat → PyVal) (i : Nat) (hi : i < M) :
    (finalOut M out).getD i PyVal.pnone = stringifyEntry (out i) := by
  unfold finalOut
  exact getD_map_range _ M i _ hi

theorem finalOut_length (M : Nat) (out : Nat → PyVal) : (finalOut M out).length = M := by
  simp [finalOut]

theorem mem_finalOut {M : Nat} {out : Nat → PyVal} {v : PyVal} (h : v ∈ finalOut M out) :
    ∃ i, v = stringifyEntry (out i) := by
  unfold finalOut at h
  obtain ⟨i, _, rfl⟩ := List.mem_map.mp h
  exact ⟨i, rfl⟩

theorem mem_unfoundPts {M : Nat} {found : Nat → Bool} {i : Nat} :
    i ∈ unfoundPts M found ↔ i < M ∧ found i = false := by
  simp [unfoundPts, List.mem_filter, List.mem_range]

theorem unfoundPts_nodup (M : Nat) (found : Nat → Bool) : (unfoundPts M found).Nodup :=
  (List.nodup_range M).filter _

theorem unfoundPts_eq_nil_iff {M : Nat} {found : Nat → Bool} :
    unfoundPts M found = [] ↔ ∀ i < M, found i = true := by
  simp [unfoundPts, List.filter_eq_nil_iff, List.mem_range]

theorem unfoundPts_congr {M : Nat} {f g : Nat → Bool} (h : ∀ i < M, f i = g i) :
    unfoundPts M f = unfoundPts M g := by
  unfold unfoundPts
  refine List.filter_congr ?_
  intro i hi
  rw [h i (List.mem_range.mp hi)]

/-! ### Characterization of the containment loop over gathered points -/

theorem testPoint_checked (cbm : Nat → Bool) (inside : Detector → Nat → Bool)
    (det : Detector) (st : RSt) (ix : Nat) :
    (testPoint cbm inside det st ix).checked = st.checked := by
  unfold testPoint
  split
  · split <;> rfl
  · rfl

theorem testPoint_unfound (cbm : Nat → Bool) (inside : Detector → Nat → Bool)
    (det : Detector) (st : RSt) (ix : Nat) :
    (testPoint cbm inside det st ix).unfound = st.unfound := by
  unfold testPoint
  split
  · split <;> rfl
  · rfl

theorem testPoint_visitLog (cbm : Nat → Bool) (inside : Detector → Nat → Bool)
    (det : Detector) (st : RSt) (ix : Nat) :
    (testPoint cbm inside det st ix).visitLog = st.visitLog := by
  unfold testPoint
  split
  · split <;> rfl
  · rfl

theorem testPoint_found (cbm : Nat → Bool) (inside : Detector → Nat → Bool)
    (det : Detector) (st : RSt) (ix j : Nat) :
    (testPoint cbm inside det st ix).found j = true ↔
      st.found j = true ∨ (j = ix ∧ inside det j = true ∧ cbm j = false) := by
  unfold testPoint
  by_cases hj : j = ix
  · subst hj
    split
    · rename_i hin
      split
      · rename_i hc
        simp [hin, hc]
      · rename_i hc
        simp only [Bool.not_eq_true] at hc
        simp [hin, hc, Function.update_apply]
    · rename_i hin
      simp only [Bool.not_eq_true] at hin
      simp [hin]
  · split
    · split
      · simp [hj]
      · simp [hj, Function.update_apply]
    · simp [hj]

theorem testPoint_out (cbm : Nat → Bool) (inside : Detector → Nat → Bool)
    (det : Detector) (st : RSt) (ix j : Nat) :
    (testPoint cbm inside det st ix).out j =
      if j = ix ∧ inside det j = true then
        (if cbm j = true then accumulate (st.out j) det.name else PyVal.pstr det.name)
      else st.out j := by
  unfold testPoint
  by_cases hj : j = ix
  · subst hj
    split
    · rename_i hin
      split
      · rename_i hc
        simp [hin, hc, Function.update_apply]
      · rename_i hc
        simp only [Bool.not_eq_true] at hc
        simp [hin, hc, Function.update_apply]
    · rename_i hin
      simp only [Bool.not_eq_true] at hin
      simp [hin]
  · split
    · split
      · simp [hj, Function.update_apply]
      · simp [hj, Function.update_apply]
    · simp [hj]

theorem testPoint_updateUnfound (cbm : Nat → Bool) (inside : Detector → Nat → Bool)
    (det : Detector) (st : RSt) (ix : Nat) :
    (testPoint cbm inside det st ix).updateUnfound = true ↔
      st.updateUnfound = true ∨ (inside det ix = true ∧ cbm ix = false) := by
  unfold testPoint
  split
  · rename_i hin
    split
    · rename_i hc
      simp [hin, hc]
    · rename_i hc
      simp only [Bool.not_eq_true] at hc
      simp [hin, hc]
  · rename_i hin
    simp only [Bool.not_eq_true] at hin
    simp [hin]

theorem foldl_testPoint_checked (cbm : Nat → Bool) (inside : Detector → Nat → Bool)
    (det : Detector) (l : List Nat) (st : RSt) :
    (l.foldl (testPoint cbm inside det) st).checked = st.checked := by
  induction l generalizing st with
  | nil => rfl
  | cons a t ih => rw [List.foldl_cons, ih, testPoint_checked]

theorem foldl_testPoint_unfound (cbm : Nat → Bool) (inside : Detector → Nat → Bool)
    (det : Detector) (l : List Nat) (st : RSt) :
    (l.foldl (testPoint cbm inside det) st).unfound = st.unfound := by
  induction l generalizing st with
  | nil => rfl
  | cons a t ih => rw [List.foldl_cons, ih, testPoint_unfound]

theorem foldl_testPoint_visitLog (cbm : Nat → Bool) (inside : Detector → Nat → Bool)
    (det : Detector) (l : List Nat) (st : RSt) :
    (l.foldl (testPoint cbm inside det) st).visitLog = st.visitLog := by
  induction l generalizing st with
  | nil => rfl
  | cons a t ih => rw [List.foldl_cons, ih, testPoint_visitLog]

theorem foldl_testPoint_found (cbm : Nat → Bool) (inside : Detector → Nat → Bool)
    (det : Detector) (l : List Nat) (st : RSt) (j : Nat) :
    (l.foldl (testPoint cbm inside det) st).found j = true ↔
      st.found j = true ∨ (j ∈ l ∧ inside det j = true ∧ cbm j = false) := by
  induction l generalizing st with
  | nil => simp
  | cons a t ih =>
    rw [List.foldl_cons, ih, testPoint_found]
    simp only [List.mem_cons]
    tauto

theorem foldl_testPoint_out (cbm : Nat → Bool) (inside : Detector → Nat → Bool)
    (det : Detector) (l : List Nat) (hnd : l.Nodup) (st : RSt) (j : Nat) :
    (l.foldl (testPoint cbm inside det) st).out j =
      if j ∈ l ∧ inside det j = true then
        (if cbm j = true then accumulate (st.out j) det.name else PyVal.pstr det.name)
      else st.out j := by
  induction l generalizing st with
  | nil => simp
  | cons a t ih =>
    obtain ⟨ha, hndt⟩ := List.nodup_cons.mp hnd
    rw [List.foldl_cons, ih hndt, testPoint_out]
    by_cases hjt : j ∈ t
    · have hja : j ≠ a := by rintro rfl; exact ha hjt
      simp [hjt, hja, List.mem_cons]
    · by_cases hja : j = a
      · subst hja
        simp [hjt, List.mem_cons]
      · simp [hjt, hja, List.mem_cons]

theorem foldl_testPoint_updateUnfound (cbm : Nat → Bool) (inside : Detector → Nat → Bool)
    (det : Detector) (l : List Nat) (st : RSt) :
    (l.foldl (testPoint cbm inside det) st).updateUnfound = true ↔
      st.updateUnfound = true ∨ ∃ j ∈ l, inside det j = true ∧ cbm j = false := by
  induction l generalizing st with
  | nil => simp
  | cons a t ih =>
    rw [List.foldl_cons, ih, testPoint_updateUnfound]
    constructor
    · rintro ((h | h) | ⟨j, hj, hins, hc⟩)
      · exact Or.inl h
      · exact Or.inr ⟨a, List.mem_cons_self a t, h⟩
      · exact Or.inr ⟨j, List.mem_cons_of_mem a hj, hins, hc⟩
    · rintro (h | ⟨j, hj, hins, hc⟩)
      · exact Or.inl (Or.inl h)
      · rcases List.mem_cons.mp hj with rfl | hjt
        · exact Or.inl (Or.inr ⟨hins, hc⟩)
        · exact Or.inr ⟨j, hjt, hins, hc⟩

/-! ### The resolver invariant -/

theorem ccFilter_append (detLists : Nat → List Detector) (inside : Detector → Nat → Bool)
    (i : Nat) (c1 c2 : List Detector) :
    ccFilter detLists inside i (c1 ++ c2) =
      ccFilter detLists inside i c1 ++ ccFilter detLists inside i c2 := by
  simp [ccFilter]

theorem ccFilter_singleton_pos {detLists : Nat → List Detector} {inside : Detector → Nat → Bool}
    {i : Nat} {det : Detector} (h1 : det ∈ detLists i) (h2 : inside det i = true) :
    ccFilter detLists inside i [det] = [det] := by
  simp [ccFilter, h1, h2]

theorem ccFilter_singleton_neg {detLists : Nat → List Detector} {inside : Detector → Nat → Bool}
    {i : Nat} {det : Detector} (h : ¬(det ∈ detLists i ∧ inside det i = true)) :
    ccFilter detLists inside i [det] = [] := by
  rcases Decidable.em (det ∈ detLists i) with h1 | h1
  · have h2 : inside det i = false := by
      rcases Bool.eq_false_or_eq_true (inside det i) with h2 | h2
      · exact absurd ⟨h1, h2⟩ h
      · exact h2
    simp [ccFilter, h2]
  · simp [ccFilter, h1]

theorem ccFilter_sub_detList {detLists : Nat → List Detector} {inside : Detector → Nat → Bool}
    {i : Nat} {checked : List Detector} {d : Detector}
    (h : d ∈ ccFilter detLists inside i checked) :
    d ∈ detLists i ∧ inside d i = true := by
  have := List.of_mem_filter h
  simpa using this

theorem mem_ccFilter {detLists : Nat → List Detector} {inside : Detector → Nat → Bool}
    {i : Nat} {checked : List Detector} {d : Detector} :
    d ∈ ccFilter detLists inside i checked ↔
      d ∈ checked ∧ d ∈ detLists i ∧ inside d i = true := by
  simp [ccFilter, List.mem_filter, and_assoc]

theorem StepFacts.refl (st : RSt) : StepFacts st st :=
  ⟨⟨[], by simp⟩, fun _ h => h⟩

theorem StepFacts.trans {s1 s2 s3 : RSt} (h1 : StepFacts s1 s2) (h2 : StepFacts s2 s3) :
    StepFacts s1 s3 := by
  obtain ⟨t1, ht1⟩ := h1.checkedExt
  obtain ⟨t2, ht2⟩ := h2.checkedExt
  exact ⟨⟨t1 ++ t2, by rw [ht2, ht1, List.append_assoc]⟩,
    fun j hj => h2.foundMono j (h1.foundMono j hj)⟩

theorem isEmpty_false_of_ne_nil {α : Type} {l : List α} (h : l ≠ []) : l.isEmpty = false := by
  cases l with
  | nil => exact absurd rfl h
  | cons a t => rfl

/-- The invariant holds in the initial state of `findRun`. -/
theorem Inv.init (M : Nat) (detLists : Nat → List Detector) (cbm : Nat → Bool)
    (inside : Detector → Nat → Bool) :
    Inv M detLists cbm inside
      { out := fun _ => PyVal.pnone, found := initFound detLists,
        checked := [], updateUnfound := true, unfound := [], visitLog := [] } := by
  refine ⟨List.nodup_nil, ?_, ?_, ?_, ?_, ?_, ?_, ?_, ?_, ?_⟩
  · intro h; cases h
  · intro i _ hi
    simp [initFound, hi]
  · intro i _ _
    rfl
  · intro i _ _ hf
    exact ⟨rfl, rfl⟩
  · intro i _ hne _ hf
    exact absurd hf (by simp [initFound, isEmpty_false_of_ne_nil hne])
  · intro i _ _
    rfl
  · intro i _ _ _
    rfl
  · intro e he
    cases he
  · exact List.nil_sublist []

theorem recompute_spec (M : Nat) (st : RSt)
    (h : st.updateUnfound = false → st.unfound = unfoundPts M st.found) :
    (recomputeStep M st).out = st.out ∧ (recomputeStep M st).found = st.found ∧
    (recomputeStep M st).checked = st.checked ∧
    (recomputeStep M st).visitLog = st.visitLog ∧
    (recomputeStep M st).updateUnfound = false ∧
    (recomputeStep M st).unfound = unfoundPts M st.found := by
  unfold recomputeStep
  split
  · exact ⟨rfl, rfl, rfl, rfl, rfl, rfl⟩
  · rename_i hf
    simp only [Bool.not_eq_true] at hf
    exact ⟨rfl, rfl, rfl, rfl, hf, h hf⟩

theorem nodup_append_singleton {α : Type} {l : List α} {a : α}
    (h1 : l.Nodup) (h2 : a ∉ l) : (l ++ [a]).Nodup := by
  simp [List.nodup_append, h1, h2]

theorem bool_eq_of_iff {a b : Bool} (h : a = true ↔ b = true) : a = b := by
  cases a <;> cases b <;> simp_all

/-- Extending the considered-detector list by a detector that contains
no currently unresolved point of its candidate lists preserves the
invariant (used for the early-return case, where no point is
unresolved, and for the case where no unresolved point has the
detector as a candidate). -/
theorem Inv.extendChecked {M : Nat} {detLists : Nat → List Detector} {cbm : Nat → Bool}
    {inside : Detector → Nat → Bool} {st st2 : RSt}
    (h : Inv M detLists cbm inside st) (det : Detector) (hdet : det ∉ st.checked)
    (hout : st2.out = st.out) (hfound : st2.found = st.found)
    (hchk : st2.checked = st.checked ++ [det]) (hlog : st2.visitLog = st.visitLog)
    (hflag : st2.updateUnfound = false) (hunf : st2.unfound = unfoundPts M st.found)
    (hsafe : ∀ i < M, st.found i = false → ¬(det ∈ detLists i ∧ inside det i = true)) :
    Inv M detLists cbm inside st2 := by
  refine ⟨?_, ?_, ?_, ?_, ?_, ?_, ?_, ?_, ?_, ?_⟩
  · rw [hchk]
    exact nodup_append_singleton h.checked_nodup hdet
  · intro _
    rw [hunf, hfound]
  · intro i hi hdl
    rw [hfound]
    exact h.empty_found i hi hdl
  · intro i hi hdl
    rw [hout]
    exact h.empty_out i hi hdl
  · intro i hi hcbm hf
    rw [hfound] at hf
    obtain ⟨ho, hcc⟩ := h.single_unfound i hi hcbm hf
    refine ⟨by rw [hout]; exact ho, ?_⟩
    rw [hchk, ccFilter_append, hcc, ccFilter_singleton_neg (hsafe i hi hf)]
    rfl
  · intro i hi hne hcbm hf
    rw [hfound] at hf
    obtain ⟨d, l, hcc, ho⟩ := h.single_found i hi hne hcbm hf
    refine ⟨d, l ++ ccFilter detLists inside i [det], ?_, by rw [hout]; exact ho⟩
    rw [hchk, ccFilter_append, hcc]
    rfl
  · intro i hi hcbm
    rw [hfound]
    exact h.multi_found i hi hcbm
  · intro i hi hne hcbm
    have hff : st.found i = false := by
      rw [h.multi_found i hi hcbm]
      exact isEmpty_false_of_ne_nil hne
    rw [hout, hchk, ccFilter_append, ccFilter_singleton_neg (hsafe i hi hff),
      List.append_nil]
    exact h.multi_out i hi hne hcbm
  · intro e he
    rw [hlog] at he
    exact h.log_ok e he
  · rw [hlog, hchk]
    exact h.log_sub.trans (List.sublist_append_left _ _)

theorem transformStep_checked (M : Nat) (cbm : Nat → Bool) (inside : Detector → Nat → Bool)
    (det : Detector) (valid : List Nat) (st : RSt) :
    (transformStep M cbm inside det valid st).checked = st.checked := by
  unfold transformStep
  rw [foldl_testPoint_checked]

theorem transformStep_unfound (M : Nat) (cbm : Nat → Bool) (inside : Detector → Nat → Bool)
    (det : Detector) (valid : List Nat) (st : RSt) :
    (transformStep M cbm inside det valid st).unfound = st.unfound := by
  unfold transformStep
  rw [foldl_testPoint_unfound]

theorem transformStep_visitLog (M : Nat) (cbm : Nat → Bool) (inside : Detector → Nat → Bool)
    (det : Detector) (valid : List Nat) (st : RSt) :
    (transformStep M cbm inside det valid st).visitLog =
      st.visitLog ++ [⟨det, st.unfound, unfoundPts M st.found, valid⟩] := by
  unfold transformStep
  rw [foldl_testPoint_visitLog]

theorem transformStep_found (M : Nat) (cbm : Nat → Bool) (inside : Detector → Nat → Bool)
    (det : Detector) (valid : List Nat) (st : RSt) (j : Nat) :
    (transformStep M cbm inside det valid st).found j = true ↔
      st.found j = true ∨ (j ∈ valid ∧ inside det j = true ∧ cbm j = false) := by
  unfold transformStep
  rw [foldl_testPoint_found]

theorem transformStep_out (M : Nat) (cbm : Nat → Bool) (inside : Detector → Nat → Bool)
    (det : Detector) (valid : List Nat) (hvnd : valid.Nodup) (st : RSt) (j : Nat) :
    (transformStep M cbm inside det valid st).out j =
      if j ∈ valid ∧ inside det j = true then
        (if cbm j = true then accumulate (st.out j) det.name else PyVal.pstr det.name)
      else st.out j := by
  unfold transformStep
  rw [foldl_testPoint_out _ _ _ _ hvnd]

theorem transformStep_updateUnfound (M : Nat) (cbm : Nat → Bool) (inside : Detector → Nat → Bool)
    (det : Detector) (valid : List Nat) (st : RSt) :
    (transformStep M cbm inside det valid st).updateUnfound = true ↔
      st.updateUnfound = true ∨ ∃ j ∈ valid, inside det j = true ∧ cbm j = false := by
  unfold transformStep
  rw [foldl_testPoint_updateUnfound]

/-- Applying the transform of a freshly considered detector to the
gathered unresolved candidate points preserves the invariant. -/
theorem Inv.transform {M : Nat} {detLists : Nat → List Detector} {cbm : Nat → Bool}
    {inside : Detector → Nat → Bool} {st st2 : RSt}
    (h : Inv M detLists cbm inside st) (det : Detector) (hdet : det ∉ st.checked)
    (hout : st2.out = st.out) (hfound : st2.found = st.found)
    (hchk : st2.checked = st.checked ++ [det]) (hlog : st2.visitLog = st.visitLog)
    (hflag : st2.updateUnfound = false) (hunf : st2.unfound = unfoundPts M st.found)
    (valid : List Nat) (hv : valid = st2.unfound.filter (fun ii => det ∈ detLists ii))
    (hvne : valid ≠ []) (hune : st2.unfound ≠ []) :
    Inv M detLists cbm inside (transformStep M cbm inside det valid st2) := by
  have hmemv : ∀ j, j ∈ valid ↔ (j < M ∧ st.found j = false) ∧ det ∈ detLists j := by
    intro j
    rw [hv, List.mem_filter, hunf]
    simp [mem_unfoundPts]
  have hvnd : valid.Nodup := by
    rw [hv]
    exact List.Nodup.filter _ (by rw [hunf]; exact unfoundPts_nodup M st.found)
  have h4found : ∀ j, (transformStep M cbm inside det valid st2).found j = true ↔
      st.found j = true ∨ (j ∈ valid ∧ inside det j = true ∧ cbm j = false) := by
    intro j
    rw [transformStep_found, hfound]
  have h4out : ∀ j, (transformStep M cbm inside det valid st2).out j =
      if j ∈ valid ∧ inside det j = true then
        (if cbm j = true then accumulate (st.out j) det.name else PyVal.pstr det.name)
      else st.out j := by
    intro j
    rw [transformStep_out _ _ _ _ _ hvnd, hout]
  refine ⟨?_, ?_, ?_, ?_, ?_, ?_, ?_, ?_, ?_, ?_⟩
  · rw [transformStep_checked, hchk]
    exact nodup_append_singleton h.checked_nodup hdet
  · intro hfl
    have hno : ∀ j ∈ valid, ¬(inside det j = true ∧ cbm j = false) := by
      intro j hj hcontra
      have : (transformStep M cbm inside det valid st2).updateUnfound = true := by
        rw [transformStep_updateUnfound]
        exact Or.inr ⟨j, hj, hcontra⟩
      rw [hfl] at this
      cases this
    have hfeq : ∀ j, (transformStep M cbm inside det valid st2).found j = st.found j := by
      intro j
      refine bool_eq_of_iff ?_
      rw [h4found j]
      constructor
      · rintro (hj | ⟨hjv, hins, hcbm⟩)
        · exact hj
        · exact absurd ⟨hins, hcbm⟩ (hno j hjv)
      · exact Or.inl
    rw [transformStep_unfound, hunf]
    exact (unfoundPts_congr (fun i _ => (hfeq i).symm)).symm ▸ rfl
  · intro i hi hdl
    exact (h4found i).mpr (Or.inl (h.empty_found i hi hdl))
  · intro i hi hdl
    have hnfv : i ∉ valid := by
      intro hiv
      have := ((hmemv i).mp hiv).1.2
      rw [h.empty_found i hi hdl] at this
      cases this
    rw [h4out i, if_neg (fun hc => hnfv hc.1)]
    exact h.empty_out i hi hdl
  · intro i hi hcbm hf
    have hsf : st.found i = false := by
      rcases Bool.eq_false_or_eq_true (st.found i) with hb | hb
      · exact absurd ((h4found i).mpr (Or.inl hb)) (by rw [hf]; simp)
      · exact hb
    have hniv : ¬(i ∈ valid ∧ inside det i = true) := by
      rintro ⟨hiv, hins⟩
      have : (transformStep M cbm inside det valid st2).found i = true :=
        (h4found i).mpr (Or.inr ⟨hiv, hins, hcbm⟩)
      rw [hf] at this
      cases this
    obtain ⟨ho, hcc⟩ := h.single_unfound i hi hcbm hsf
    refine ⟨by rw [h4out i, if_neg hniv]; exact ho, ?_⟩
    rw [transformStep_checked, hchk, ccFilter_append, hcc]
    have : ¬(det ∈ detLists i ∧ inside det i = true) := by
      rintro ⟨hdl, hins⟩
      exact hniv ⟨(hmemv i).mpr ⟨⟨hi, hsf⟩, hdl⟩, hins⟩
    rw [ccFilter_singleton_neg this]
    rfl
  · intro i hi hne hcbm hf
    rcases Bool.eq_false_or_eq_true (st.found i) with hsf | hsf
    · obtain ⟨d, l, hcc, ho⟩ := h.single_found i hi hne hcbm hsf
      have hniv : i ∉ valid := by
        intro hiv
        have := ((hmemv i).mp hiv).1.2
        rw [hsf] at this
        cases this
      refine ⟨d, l ++ ccFilter detLists inside i [det], ?_,
        by rw [h4out i, if_neg (fun hc => hniv hc.1)]; exact ho⟩
      rw [transformStep_checked, hchk, ccFilter_append, hcc]
      rfl
    · have hiv : i ∈ valid ∧ inside det i = true ∧ cbm i = false := by
        rcases (h4found i).mp hf with hb | hb
        · rw [hsf] at hb; cases hb
        · exact hb
      obtain ⟨ho, hcc⟩ := h.single_unfound i hi hcbm hsf
      refine ⟨det, [], ?_, ?_⟩
      · rw [transformStep_checked, hchk, ccFilter_append, hcc,
          ccFilter_singleton_pos ((hmemv i).mp hiv.1).2 hiv.2.1]
        rfl
      · rw [h4out i, if_pos ⟨hiv.1, hiv.2.1⟩, if_neg (by rw [hcbm]; simp)]
  · intro i hi hcbm
    have : (transformStep M cbm inside det valid st2).found i = st.found i := by
      refine bool_eq_of_iff ?_
      rw [h4found i]
      constructor
      · rintro (hb | ⟨_, _, hc⟩)
        · exact hb
        · rw [hcbm] at hc; cases hc
      · exact Or.inl
    rw [this]
    exact h.multi_found i hi hcbm
  · intro i hi hne hcbm
    have hsf : st.found i = false := by
      rw [h.multi_found i hi hcbm]
      exact isEmpty_false_of_ne_nil hne
    have hold := h.multi_out i hi hne hcbm
    rw [transformStep_checked, hchk, ccFilter_append]
    by_cases hdl : det ∈ detLists i
    · have hiv : i ∈ valid := (hmemv i).mpr ⟨⟨hi, hsf⟩, hdl⟩
      by_cases hins : inside det i = true
      · rw [h4out i, if_pos ⟨hiv, hins⟩, if_pos hcbm, hold,
          ccFilter_singleton_pos hdl hins, List.map_append]
        simp only [List.map_cons, List.map_nil]
        rw [renderAcc_append]
      · have hins' : inside det i = false := by
          rcases Bool.eq_false_or_eq_true (inside det i) with hb | hb
          · exact absurd hb hins
          · exact hb
        rw [h4out i, if_neg (fun hc => hins hc.2),
          ccFilter_singleton_neg (fun hc => hins hc.2), List.append_nil]
        exact hold
    · have hniv : i ∉ valid := fun hiv => hdl ((hmemv i).mp hiv).2
      rw [h4out i, if_neg (fun hc => hniv hc.1),
        ccFilter_singleton_neg (fun hc => hdl hc.1), List.append_nil]
      exact hold
  · intro e he
    rw [transformStep_visitLog] at he
    rcases List.mem_append.mp he with hold | hnew
    · rw [hlog] at hold
      exact h.log_ok e hold
    · have he' : e = ⟨det, st2.unfound, unfoundPts M st2.found, valid⟩ :=
        List.mem_singleton.mp hnew
      subst he'
      refine ⟨?_, ?_, hvne, ?_⟩
      · show st2.unfound = unfoundPts M st2.found
        rw [hfound, hunf]
      · show st2.unfound ≠ []
        exact hune
      · intro j hj
        obtain ⟨⟨hjM, hjf⟩, hjdl⟩ := (hmemv j).mp hj
        exact ⟨hjM, List.ne_nil_of_mem hjdl⟩
  · rw [transformStep_visitLog, transformStep_checked, hchk, hlog, List.map_append]
    exact List.Sublist.append h.log_sub (List.Sublist.refl _)

/-- One detector-processing step preserves the invariant (and yields
the early-return facts when it returns early). -/
theorem processDetector_spec (M : Nat) (detLists : Nat → List Detector) (cbm : Nat → Bool)
    (inside : Detector → Nat → Bool) (st : RSt) (det : Detector)
    (h : Inv M detLists cbm inside st) :
    (∀ r stE, processDetector M detLists cbm inside st det = Sum.inl (r, stE) →
        EarlyFacts M detLists cbm inside st r stE) ∧
    (∀ st', processDetector M detLists cbm inside st det = Sum.inr st' →
        Inv M detLists cbm inside st' ∧ StepFacts st st' ∧ det ∈ st'.checked) := by
  by_cases hchk : det ∈ st.checked
  · constructor
    · intro r stE heq
      rw [processDetector, if_pos hchk] at heq
      cases heq
    · intro st' heq
      rw [processDetector, if_pos hchk] at heq
      cases heq
      exact ⟨h, StepFacts.refl st, hchk⟩
  · obtain ⟨rout, rfound, rchecked, rlog, rflag, runf⟩ :=
      recompute_spec M { st with checked := st.checked ++ [det] } h.coherent
    set st2 : RSt := recomputeStep M { st with checked := st.checked ++ [det] } with hst2
    have hout2 : st2.out = st.out := rout
    have hfound2 : st2.found = st.found := rfound
    have hchk2 : st2.checked = st.checked ++ [det] := rchecked
    have hlog2 : st2.visitLog = st.visitLog := rlog
    have hflag2 : st2.updateUnfound = false := rflag
    have hunf2 : st2.unfound = unfoundPts M st.found := runf
    have hpd : processDetector M detLists cbm inside st det =
        processDetectorAux M detLists cbm inside det st2 := by
      unfold processDetector
      rw [if_neg hchk, hst2]
    have hstep2 : StepFacts st st2 :=
      ⟨⟨[det], hchk2⟩, fun j hj => by rw [hfound2]; exact hj⟩
    rcases Bool.eq_false_or_eq_true st2.unfound.isEmpty with hemp | hemp
    · -- every point is resolved: early return
      have haux : processDetectorAux M detLists cbm inside det st2 =
          Sum.inl (finalOut M st2.out, st2) := by
        unfold processDetectorAux
        rw [if_pos hemp]
      have hallf : ∀ i < M, st.found i = true := by
        refine unfoundPts_eq_nil_iff.mp ?_
        rw [← hunf2]
        exact List.isEmpty_iff.mp hemp
      have hsafe : ∀ i < M, st.found i = false →
          ¬(det ∈ detLists i ∧ inside det i = true) := by
        intro i hi hf
        rw [hallf i hi] at hf
        cases hf
      have hinv2 : Inv M detLists cbm inside st2 :=
        h.extendChecked det hchk hout2 hfound2 hchk2 hlog2 hflag2 hunf2 hsafe
      constructor
      · intro r stE heq
        rw [hpd, haux] at heq
        cases heq
        exact ⟨hinv2, hstep2, fun i hi => by rw [hfound2]; exact hallf i hi, rfl⟩
      · intro st' heq
        rw [hpd, haux] at heq
        cases heq
    · -- there are unresolved points
      have hune : st2.unfound ≠ [] := by
        intro hc
        rw [hc] at hemp
        simp at hemp
      rcases Bool.eq_false_or_eq_true
          (st2.unfound.filter (fun ii => det ∈ detLists ii)).isEmpty with hvemp | hvemp
      · -- no unresolved point has this detector as candidate
        have haux : processDetectorAux M detLists cbm inside det st2 = Sum.inr st2 := by
          unfold processDetectorAux
          rw [if_neg (by rw [hemp]; exact Bool.false_ne_true)]
          show (if (st2.unfound.filter (fun ii => det ∈ detLists ii)).isEmpty then
              Sum.inr st2
            else Sum.inr (transformStep M cbm inside det
              (st2.unfound.filter (fun ii => det ∈ detLists ii)) st2)) = _
          rw [if_pos hvemp]
        have hvnil : st2.unfound.filter (fun ii => det ∈ detLists ii) = [] :=
          List.isEmpty_iff.mp hvemp
        have hsafe : ∀ i < M, st.found i = false →
            ¬(det ∈ detLists i ∧ inside det i = true) := by
          intro i hi hf hc
          have hiu : i ∈ st2.unfound := by
            rw [hunf2]
            exact mem_unfoundPts.mpr ⟨hi, hf⟩
          have : i ∈ st2.unfound.filter (fun ii => det ∈ detLists ii) :=
            List.mem_filter.mpr ⟨hiu, by simpa using hc.1⟩
          rw [hvnil] at this
          cases this
        have hinv2 : Inv M detLists cbm inside st2 :=
          h.extendChecked det hchk hout2 hfound2 hchk2 hlog2 hflag2 hunf2 hsafe
        constructor
        · intro r stE heq
          rw [hpd, haux] at heq
          cases heq
        · intro st' heq
          rw [hpd, haux] at heq
          cases heq
          refine ⟨hinv2, hstep2, ?_⟩
          rw [hchk2]
          exact List.mem_append_right _ (List.mem_singleton_self det)
      · -- the detector is a candidate of some unresolved point: transform applied
        have haux : processDetectorAux M detLists cbm inside det st2 =
            Sum.inr (transformStep M cbm inside det
              (st2.unfound.filter (fun ii => det ∈ detLists ii)) st2) := by
          unfold processDetectorAux
          rw [if_neg (by rw [hemp]; exact Bool.false_ne_true)]
          show (if (st2.unfound.filter (fun ii => det ∈ detLists ii)).isEmpty then
              Sum.inr st2
            else Sum.inr (transformStep M cbm inside det
              (st2.unfound.filter (fun ii => det ∈ detLists ii)) st2)) = _
          rw [if_neg (by rw [hvemp]; exact Bool.false_ne_true)]
        have hvne : st2.unfound.filter (fun ii => det ∈ detLists ii) ≠ [] := by
          intro hc
          rw [hc] at hvemp
          simp at hvemp
        have hinv4 := h.transform det hchk hout2 hfound2 hchk2 hlog2 hflag2 hunf2
          (st2.unfound.filter (fun ii => det ∈ detLists ii)) rfl hvne hune
        constructor
        · intro r stE heq
          rw [hpd, haux] at heq
          cases heq
        · intro st' heq
          rw [hpd, haux] at heq
          cases heq
          refine ⟨hinv4, ?_, ?_⟩
          · refine ⟨⟨[det], by rw [transformStep_checked]; exact hchk2⟩, ?_⟩
            intro j hj
            rw [transformStep_found]
            exact Or.inl (by rw [hfound2]; exact hj)
          · rw [transformStep_checked, hchk2]
            exact List.mem_append_right _ (List.mem_singleton_self det)

theorem StepFacts.mem_checked {s1 s2 : RSt} (h : StepFacts s1 s2) {d : Detector}
    (hd : d ∈ s1.checked) : d ∈ s2.checked := by
  obtain ⟨t, ht⟩ := h.checkedExt
  rw [ht]
  exact List.mem_append_left _ hd

theorem StepFacts.liftEarly {M : Nat} {detLists : Nat → List Detector} {cbm : Nat → Bool}
    {inside : Detector → Nat → Bool} {st st1 stE : RSt} {r : List PyVal}
    (hstep : StepFacts st st1) (h : EarlyFacts M detLists cbm inside st1 r stE) :
    EarlyFacts M detLists cbm inside st r stE :=
  ⟨h.1, hstep.trans h.2.1, h.2.2⟩

/-- The inner loop over the candidate detectors of one point preserves
the invariant; on normal exit every detector of the list has been
considered. -/
theorem processDetectorList_spec (M : Nat) (detLists : Nat → List Detector) (cbm : Nat → Bool)
    (inside : Detector → Nat → Bool) (dl : List Detector) (st : RSt)
    (h : Inv M detLists cbm inside st) :
    (∀ r stE, processDetectorList M detLists cbm inside dl st = Sum.inl (r, stE) →
        EarlyFacts M detLists cbm inside st r stE) ∧
    (∀ st', processDetectorList M detLists cbm inside dl st = Sum.inr st' →
        Inv M detLists cbm inside st' ∧ StepFacts st st' ∧ ∀ d ∈ dl, d ∈ st'.checked) := by
  induction dl generalizing st with
  | nil =>
    constructor
    · intro r stE heq
      simp only [processDetectorList] at heq
      cases heq
    · intro st' heq
      simp only [processDetectorList] at heq
      cases heq
      exact ⟨h, StepFacts.refl st, by simp⟩
  | cons det rest ih =>
    have pd := processDetector_spec M detLists cbm inside st det h
    cases hpd : processDetector M detLists cbm inside st det with
    | inl p =>
      obtain ⟨r1, st1⟩ := p
      have hE := pd.1 r1 st1 hpd
      constructor
      · intro r stE heq
        simp only [processDetectorList, hpd] at heq
        cases heq
        exact hE
      · intro st' heq
        simp only [processDetectorList, hpd] at heq
        cases heq
    | inr st1 =>
      obtain ⟨hinv1, hstep1, hmem1⟩ := pd.2 st1 hpd
      have hrest := ih st1 hinv1
      constructor
      · intro r stE heq
        simp only [processDetectorList, hpd] at heq
        exact hstep1.liftEarly (hrest.1 r stE heq)
      · intro st' heq
        simp only [processDetectorList, hpd] at heq
        obtain ⟨hinv', hstep', hmem'⟩ := hrest.2 st' heq
        refine ⟨hinv', hstep1.trans hstep', ?_⟩
        intro d hd
        rcases List.mem_cons.mp hd with rfl | hdr
        · exact hstep'.mem_checked hmem1
        · exact hmem' d hdr

/-- Processing one point of the outer loop preserves the invariant; on
normal exit the point is either resolved or all of its candidates have
been considered. -/
theorem processPoint_spec (M : Nat) (detLists : Nat → List Detector) (cbm : Nat → Bool)
    (inside : Detector → Nat → Bool) (st : RSt) (ipt : Nat)
    (h : Inv M detLists cbm inside st) :
    (∀ r stE, processPoint M detLists cbm inside st ipt = Sum.inl (r, stE) →
        EarlyFacts M detLists cbm inside st r stE) ∧
    (∀ st', processPoint M detLists cbm inside st ipt = Sum.inr st' →
        Inv M detLists cbm inside st' ∧ StepFacts st st' ∧
        (st'.found ipt = true ∨ ∀ d ∈ detLists ipt, d ∈ st'.checked)) := by
  by_cases hf : st.found ipt = true
  · constructor
    · intro r stE heq
      rw [processPoint, if_pos hf] at heq
      cases heq
    · intro st' heq
      rw [processPoint, if_pos hf] at heq
      cases heq
      exact ⟨h, StepFacts.refl st, Or.inl hf⟩
  · have hdl := processDetectorList_spec M detLists cbm inside (detLists ipt) st h
    constructor
    · intro r stE heq
      rw [processPoint, if_neg hf] at heq
      exact hdl.1 r stE heq
    · intro st' heq
      rw [processPoint, if_neg hf] at heq
      obtain ⟨hinv', hstep', hmem'⟩ := hdl.2 st' heq
      exact ⟨hinv', hstep', Or.inr hmem'⟩

/-- The outer loop over a list of point indices preserves the
invariant; on normal exit every listed point is resolved or has had its
whole candidate list considered. -/
theorem processPoints_spec (M : Nat) (detLists : Nat → List Detector) (cbm : Nat → Bool)
    (inside : Detector → Nat → Bool) (l : List Nat) (st : RSt)
    (h : Inv M detLists cbm inside st) :
    (∀ r stE, processPoints M detLists cbm inside l st = Sum.inl (r, stE) →
        EarlyFacts M detLists cbm inside st r stE) ∧
    (∀ st', processPoints M detLists cbm inside l st = Sum.inr st' →
        Inv M detLists cbm inside st' ∧ StepFacts st st' ∧
        ∀ ipt ∈ l, st'.found ipt = true ∨ ∀ d ∈ detLists ipt, d ∈ st'.checked) := by
  induction l generalizing st with
  | nil =>
    constructor
    · intro r stE heq
      simp only [processPoints] at heq
      cases heq
    · intro st' heq
      simp only [processPoints] at heq
      cases heq
      exact ⟨h, StepFacts.refl st, by simp⟩
  | cons ipt rest ih =>
    have pp := processPoint_spec M detLists cbm inside st ipt h
    cases hpp : processPoint M detLists cbm inside st ipt with
    | inl p =>
      obtain ⟨r1, st1⟩ := p
      have hE := pp.1 r1 st1 hpp
      constructor
      · intro r stE heq
        simp only [processPoints, hpp] at heq
        cases heq
        exact hE
      · intro st' heq
        simp only [processPoints, hpp] at heq
        cases heq
    | inr st1 =>
      obtain ⟨hinv1, hstep1, hdisj1⟩ := pp.2 st1 hpp
      have hrest := ih st1 hinv1
      constructor
      · intro r stE heq
        simp only [processPoints, hpp] at heq
        exact hstep1.liftEarly (hrest.1 r stE heq)
      · intro st' heq
        simp only [processPoints, hpp] at heq
        obtain ⟨hinv', hstep', hdisj'⟩ := hrest.2 st' heq
        refine ⟨hinv', hstep1.trans hstep', ?_⟩
        intro j hj
        rcases List.mem_cons.mp hj with rfl | hjr
        · rcases hdisj1 with hfd | hcd
          · exact Or.inl (hstep'.foundMono j hfd)
          · exact Or.inr fun d hd => hstep'.mem_checked (hcd d hd)
        · exact hdisj' j hjr

/-- The master theorem about one run of `_findDetectorsListLSST`: the
final ghost state satisfies the invariant, the returned array is the
stringified output of that state, and every point is either resolved or
has had all of its candidate detectors considered. -/
theorem findRun_spec (M : Nat) (detLists : Nat → List Detector)
    (inside : Detector → Nat → Bool) (allowMult : Bool) :
    Inv M detLists (couldBeMultiple detLists allowMult) inside
      (findRun M detLists inside allowMult).2 ∧
    (findRun M detLists inside allowMult).1 =
      finalOut M (findRun M detLists inside allowMult).2.out ∧
    (∀ i < M, (findRun M detLists inside allowMult).2.found i = true ∨
      ∀ d ∈ detLists i, d ∈ (findRun M detLists inside allowMult).2.checked) := by
  have h0 := Inv.init M detLists (couldBeMultiple detLists allowMult) inside
  have hps := processPoints_spec M detLists (couldBeMultiple detLists allowMult) inside
    (List.range M)
    { out := fun _ => PyVal.pnone, found := initFound detLists,
      checked := [], updateUnfound := true, unfound := [], visitLog := [] } h0
  cases hpp : processPoints M detLists (couldBeMultiple detLists allowMult) inside
      (List.range M)
      { out := fun _ => PyVal.pnone, found := initFound detLists,
        checked := [], updateUnfound := true, unfound := [], visitLog := [] } with
  | inl p =>
    obtain ⟨r, stE⟩ := p
    obtain ⟨hinv, _, hall, hr⟩ := hps.1 r stE hpp
    have hrun : findRun M detLists inside allowMult = (r, stE) := by
      simp only [findRun]
      rw [hpp]
    rw [hrun]
    exact ⟨hinv, hr, fun i hi => Or.inl (hall i hi)⟩
  | inr stF =>
    obtain ⟨hinv, _, hdisj⟩ := hps.2 stF hpp
    have hrun : findRun M detLists inside allowMult = (finalOut M stF.out, stF) := by
      simp only [findRun]
      rw [hpp]
    rw [hrun]
    exact ⟨hinv, rfl, fun i hi => hdisj i (List.mem_range.mpr hi)⟩

/-! ### Characterization of the resolver output, per point -/

theorem findDetectors_length (M : Nat) (detLists : Nat → List Detector)
    (inside : Detector → Nat → Bool) (allowMult : Bool) :
    (findDetectorsListLSST M detLists inside allowMult).length = M := by
  unfold findDetectorsListLSST
  rw [(findRun_spec M detLists inside allowMult).2.1, finalOut_length]

theorem findDetectors_getD (M : Nat) (detLists : Nat → List Detector)
    (inside : Detector → Nat → Bool) (allowMult : Bool) (i : Nat) (hi : i < M) :
    (findDetectorsListLSST M detLists inside allowMult).getD i PyVal.pnone =
      stringifyEntry ((findRun M detLists inside allowMult).2.out i) := by
  unfold findDetectorsListLSST
  rw [(findRun_spec M detLists inside allowMult).2.1, finalOut_getD _ _ i hi]

theorem findDetectors_empty_char (M : Nat) (detLists : Nat → List Detector)
    (inside : Detector → Nat → Bool) (allowMult : Bool) (i : Nat) (hi : i < M)
    (hdl : detLists i = []) :
    (findDetectorsListLSST M detLists inside allowMult).getD i PyVal.pnone = PyVal.pnone := by
  rw [findDetectors_getD M detLists inside allowMult i hi,
    (findRun_spec M detLists inside allowMult).1.empty_out i hi hdl]
  rfl

/-- A point that is not multi-eligible either ends unresolved, with no
candidate containing it and `None` as answer, or resolved to the first
containing candidate in consideration order. -/
theorem findDetectors_single_char (M : Nat) (detLists : Nat → List Detector)
    (inside : Detector → Nat → Bool) (allowMult : Bool) (i : Nat) (hi : i < M)
    (hne : detLists i ≠ []) (hcbm : couldBeMultiple detLists allowMult i = false) :
    ((findDetectorsListLSST M detLists inside allowMult).getD i PyVal.pnone = PyVal.pnone ∧
      (detLists i).filter (fun d => inside d i) = []) ∨
    (∃ d l, ccFilter detLists inside i (findRun M detLists inside allowMult).2.checked = d :: l ∧
      (findDetectorsListLSST M detLists inside allowMult).getD i PyVal.pnone =
        PyVal.pstr d.name) := by
  obtain ⟨hinv, _, hcompl⟩ := findRun_spec M detLists inside allowMult
  rcases Bool.eq_false_or_eq_true ((findRun M detLists inside allowMult).2.found i) with hf | hf
  · obtain ⟨d, l, hcc, ho⟩ := hinv.single_found i hi hne hcbm hf
    right
    exact ⟨d, l, hcc, by rw [findDetectors_getD M detLists inside allowMult i hi, ho]; rfl⟩
  · obtain ⟨ho, hcc⟩ := hinv.single_unfound i hi hcbm hf
    left
    refine ⟨by rw [findDetectors_getD M detLists inside allowMult i hi, ho]; rfl, ?_⟩
    have hchk : ∀ d ∈ detLists i, d ∈ (findRun M detLists inside allowMult).2.checked := by
      rcases hcompl i hi with hfd | hcd
      · rw [hf] at hfd; cases hfd
      · exact hcd
    rw [List.filter_eq_nil_iff]
    intro d hd hins
    have : d ∈ ccFilter detLists inside i (findRun M detLists inside allowMult).2.checked :=
      mem_ccFilter.mpr ⟨hchk d hd, hd, hins⟩
    rw [hcc] at this
    cases this

/-- A multi-eligible point accumulates exactly the containing
candidates, in consideration order, and its answer is the stringified
accumulation. -/
theorem findDetectors_multi_char (M : Nat) (detLists : Nat → List Detector)
    (inside : Detector → Nat → Bool) (allowMult : Bool) (i : Nat) (hi : i < M)
    (hne : detLists i ≠ []) (hcbm : couldBeMultiple detLists allowMult i = true) :
    (findDetectorsListLSST M detLists inside allowMult).getD i PyVal.pnone =
      stringifyEntry (renderAcc
        ((ccFilter detLists inside i (findRun M detLists inside allowMult).2.checked).map
          (fun d => d.name))) ∧
    (ccFilter detLists inside i (findRun M detLists inside allowMult).2.checked).Nodup ∧
    (∀ d, d ∈ ccFilter detLists inside i (findRun M detLists inside allowMult).2.checked ↔
      d ∈ (detLists i).filter (fun d => inside d i)) := by
  obtain ⟨hinv, _, hcompl⟩ := findRun_spec M detLists inside allowMult
  have hf : (findRun M detLists inside allowMult).2.found i = false := by
    rw [hinv.multi_found i hi hcbm]
    exact isEmpty_false_of_ne_nil hne
  have hchk : ∀ d ∈ detLists i, d ∈ (findRun M detLists inside allowMult).2.checked := by
    rcases hcompl i hi with hfd | hcd
    · rw [hf] at hfd; cases hfd
    · exact hcd
  refine ⟨?_, ?_, ?_⟩
  · rw [findDetectors_getD M detLists inside allowMult i hi,
      hinv.multi_out i hi hne hcbm]
  · exact List.Nodup.filter _ hinv.checked_nodup
  · intro d
    rw [mem_ccFilter, List.mem_filter]
    constructor
    · rintro ⟨_, hd, hins⟩
      exact ⟨hd, hins⟩
    · rintro ⟨hd, hins⟩
      exact ⟨hchk d hd, hd, by simpa using hins⟩

/-- With duplicate-free candidate lists, the accumulated name list of a
multi-eligible point is a permutation of the containing candidates in
candidate-list order. -/
theorem findDetectors_multi_perm (M : Nat) (detLists : Nat → List Detector)
    (inside : Detector → Nat → Bool) (allowMult : Bool) (i : Nat) (hi : i < M)
    (hne : detLists i ≠ []) (hcbm : couldBeMultiple detLists allowMult i = true)
    (hnd : (detLists i).Nodup) :
    List.Perm (ccFilter detLists inside i (findRun M detLists inside allowMult).2.checked)
      ((detLists i).filter (fun d => inside d i)) := by
  obtain ⟨_, hccnd, hmem⟩ :=
    findDetectors_multi_char M detLists inside allowMult i hi hne hcbm
  exact (List.perm_ext_iff_of_nodup hccnd (List.Nodup.filter _ hnd)).mpr hmem

theorem exLists_nodup : ∀ i, (exLists i).Nodup := by
  intro i
  match i with
  | 0 => decide
  | 1 => decide
  | 2 => decide
  | 3 => decide
  | n + 4 => exact List.nodup_nil

/-! ### Claim theorems -/

/-- C8: for an input batch of M coordinate pairs,
`chipNameFromPupilCoordsLSST` returns exactly M results, one per input
point in input order; this covers every return path of the resolver,
the early exit included, since `findRun` produces the output of
whichever path returned. -/
theorem c8_lookup_length (cm : CameraModel) (insideCam : Detector → ℚ × ℚ → Bool)
    (pts : List (ℚ × ℚ)) (allowMult : Bool) :
    (chipNameFromPupilCoordsLSST cm insideCam pts allowMult).length = pts.length := by
  exact findDetectors_length pts.length (fun i => chipNameValidDets cm pts i)
    (fun det i => insideCam det (pts.getD i (0, 0))) allowMult

/-- C9: `pixelCoordsFromRaDecLSST` forwards the constant epoch 2000 to
the radian interface, so two calls differing only in the epoch argument
return identical results — even though the radian interface itself is
epoch sensitive, as the second conjunct shows on a concrete
epoch-dependent sky conversion. -/
theorem c9_epoch_ignored :
    (∀ (cm : CameraModel) (insideCam : Detector → ℚ × ℚ → Bool) (skyToPupil : SkyToPupil)
      (ρ : Type) (pixFromPupil : List (ℚ × ℚ) → List PyVal → Bool → ρ)
      (radians radiansFromArcsec : ℚ → ℚ) (ra dec : PyArg ℚ)
      (pm_ra pm_dec parallax v_rad : Option ℚ) (obs : Option ObsMetadata)
      (chipName : Option (PyArg String)) (e1 e2 : Option ℚ) (includeDistortion : Bool),
      pixelCoordsFromRaDecLSSTDeg cm insideCam skyToPupil pixFromPupil radians
          radiansFromArcsec ra dec pm_ra pm_dec parallax v_rad obs chipName e1
          includeDistortion =
        pixelCoordsFromRaDecLSSTDeg cm insideCam skyToPupil pixFromPupil radians
          radiansFromArcsec ra dec pm_ra pm_dec parallax v_rad obs chipName e2
          includeDistortion) ∧
    pixelCoordsFromRaDecLSSTRad cmEx insideCamEx skyEx pixEx
        (PyArg.scalar 2) (PyArg.scalar 3) none none none none (some obsEx)
        (some (PyArg.array ["A"])) (some 1) true ≠
      pixelCoordsFromRaDecLSSTRad cmEx insideCamEx skyEx pixEx
        (PyArg.scalar 2) (PyArg.scalar 3) none none none none (some obsEx)
        (some (PyArg.array ["A"])) (some 2) true := by
  constructor
  · intro cm insideCam skyToPupil ρ pixFromPupil radians radiansFromArcsec ra dec
      pm_ra pm_dec parallax v_rad obs chipName e1 e2 includeDistortion
    rfl
  · decide

/-- C3 counterexample: in the two-point batch `c3Lists`, detector B
occurs in the candidate list of point 0 and is encountered during the
scan (it enters `checked_detectors`), yet its transform is applied zero
times, refuting that each distinct detector encountered while scanning
the candidate lists has its transform applied exactly once. -/
theorem c3_counterexample :
    exDetB ∈ c3Lists 0 ∧
    exDetB ∈ (findRun 2 c3Lists c3Inside false).2.checked ∧
    ((findRun 2 c3Lists c3Inside false).2.visitLog.map (fun e => e.det)).count exDetB = 0 := by
  refine ⟨?_, ?_, ?_⟩ <;> decide

/-- C3 (amended): during one resolver run each distinct detector has
its transform applied at most once; the transform applications happen
in the order the detectors are first encountered while scanning the
candidate lists left to right, point by point (the applied detectors
form a duplicate-free sublist of the duplicate-free consideration
sequence); and every application happens while the set of globally
unresolved points — whose cached copy is exact at each check — is
nonempty: when the check sees no unresolved point the procedure
returns at once, so no further transform is applied. -/
theorem c3_visitation (M : Nat) (detLists : Nat → List Detector)
    (inside : Detector → Nat → Bool) (allowMult : Bool) :
    ((findRun M detLists inside allowMult).2.visitLog.map (fun e => e.det)).Nodup ∧
    List.Sublist ((findRun M detLists inside allowMult).2.visitLog.map (fun e => e.det))
      (findRun M detLists inside allowMult).2.checked ∧
    (findRun M detLists inside allowMult).2.checked.Nodup ∧
    (∀ e ∈ (findRun M detLists inside allowMult).2.visitLog,
      e.cachedUnfound = e.trueUnfound ∧ e.cachedUnfound ≠ [] ∧ e.validPts ≠ []) := by
  have h := (findRun_spec M detLists inside allowMult).1
  refine ⟨h.checked_nodup.sublist h.log_sub, h.log_sub, h.checked_nodup, ?_⟩
  intro e he
  obtain ⟨h1, h2, h3, _⟩ := h.log_ok e he
  exact ⟨h1, h2, h3⟩

/-- C4: a query point outside the overall camera bounding box, or whose
candidate list is empty from the start, resolves to None and is never
handed to any per-detector transform: it appears in no gathered point
set of the ghost visitation log. -/
theorem c4_outside_no_transform (cm : CameraModel) (insideCam : Detector → ℚ × ℚ → Bool)
    (pts : List (ℚ × ℚ)) (allowMult : Bool) (i : Nat) (hi : i < pts.length)
    (h : cm.cameraBox.containsPt (pts.getD i (0, 0)) = false ∨
      chipNameValidDets cm pts i = []) :
    (chipNameFromPupilCoordsLSST cm insideCam pts allowMult).getD i PyVal.pnone =
      PyVal.pnone ∧
    ∀ e ∈ (chipNamePtsRun cm insideCam pts allowMult).2.visitLog, i ∉ e.validPts := by
  have hdl : chipNameValidDets cm pts i = [] := by
    rcases h with hb | hb
    · unfold chipNameValidDets
      rw [if_neg (by rw [hb]; exact Bool.false_ne_true)]
    · exact hb
  constructor
  · exact findDetectors_empty_char pts.length (fun j => chipNameValidDets cm pts j)
      (fun det j => insideCam det (pts.getD j (0, 0))) allowMult i hi hdl
  · intro e he hiv
    have hinv := (findRun_spec pts.length (fun j => chipNameValidDets cm pts j)
      (fun det j => insideCam det (pts.getD j (0, 0))) allowMult).1
    exact ((hinv.log_ok e he).2.2.2 i hiv).2 hdl

/-- C4 witness: the point (20, 20) lies outside the camera box of the
one-detector example camera; it resolves to None and is never
transformed. -/
theorem c4_witness :
    (chipNameFromPupilCoordsLSST cmEx insideCamEx [(20, 20)] false).getD 0 PyVal.pnone =
      PyVal.pnone ∧
    ∀ e ∈ (chipNamePtsRun cmEx insideCamEx [(20, 20)] false).2.visitLog, 0 ∉ e.validPts :=
  c4_outside_no_transform cmEx insideCamEx [(20, 20)] false 0 (by decide)
    (Or.inl (by decide))

theorem validateInputs_ok {α : Type} {a b : PyArg α} (h : shapesOk a b) (na nb f : String) :
    ∃ v, validateInputs a b na nb f = Except.ok v := by
  match a, b with
  | PyArg.scalar _, PyArg.scalar _ => exact ⟨false, rfl⟩
  | PyArg.array xs, PyArg.array ys =>
    refine ⟨true, ?_⟩
    have hl : xs.length = ys.length := h
    simp [validateInputs, hl]
  | PyArg.scalar _, PyArg.array _ => cases h
  | PyArg.array _, PyArg.scalar _ => cases h

/-- C7: with validly shaped coordinate inputs, a missing epoch, a
missing observation container, a missing mjd, or a missing rotSkyPos
makes both sky-side entry points fail with the source error message
naming the missing field — before any candidate filtering or detector
resolution, whose results never appear in the error return — and no
default is substituted. -/
theorem c7_missing_metadata (cm : CameraModel) (insideCam : Detector → ℚ × ℚ → Bool)
    (skyToPupil : SkyToPupil) {ρ : Type}
    (pixFromPupil : List (ℚ × ℚ) → List PyVal → Bool → ρ)
    (ra dec : PyArg ℚ) (pm_ra pm_dec parallax v_rad : Option ℚ)
    (chipName : Option (PyArg String)) (includeDistortion allowMult : Bool)
    (obs : Option ObsMetadata) (epoch : Option ℚ) (hs : shapesOk ra dec) :
    (epoch = none →
      chipNameFromRaDecLSSTRad cm insideCam skyToPupil ra dec pm_ra pm_dec parallax v_rad
          obs epoch allowMult = Except.error "You need to pass an epoch into chipName" ∧
      pixelCoordsFromRaDecLSSTRad cm insideCam skyToPupil pixFromPupil ra dec pm_ra pm_dec
          parallax v_rad obs chipName epoch includeDistortion =
        Except.error "You need to pass an epoch into pixelCoordsFromRaDec") ∧
    (∀ ep, epoch = some ep → obs = none →
      chipNameFromRaDecLSSTRad cm insideCam skyToPupil ra dec pm_ra pm_dec parallax v_rad
          obs epoch allowMult =
        Except.error "You need to pass an ObservationMetaData into chipName" ∧
      pixelCoordsFromRaDecLSSTRad cm insideCam skyToPupil pixFromPupil ra dec pm_ra pm_dec
          parallax v_rad obs chipName epoch includeDistortion =
        Except.error "You need to pass an ObservationMetaData into pixelCoordsFromRaDec") ∧
    (∀ ep o, epoch = some ep → obs = some o → o.mjd = none →
      chipNameFromRaDecLSSTRad cm insideCam skyToPupil ra dec pm_ra pm_dec parallax v_rad
          obs epoch allowMult =
        Except.error "You need to pass an ObservationMetaData with an mjd into chipName" ∧
      pixelCoordsFromRaDecLSSTRad cm insideCam skyToPupil pixFromPupil ra dec pm_ra pm_dec
          parallax v_rad obs chipName epoch includeDistortion =
        Except.error
          "You need to pass an ObservationMetaData with an mjd into pixelCoordsFromRaDec") ∧
    (∀ ep o mj, epoch = some ep → obs = some o → o.mjd = some mj → o.rotSkyPos = none →
      chipNameFromRaDecLSSTRad cm insideCam skyToPupil ra dec pm_ra pm_dec parallax v_rad
          obs epoch allowMult =
        Except.error
          "You need to pass an ObservationMetaData with a rotSkyPos into chipName" ∧
      pixelCoordsFromRaDecLSSTRad cm insideCam skyToPupil pixFromPupil ra dec pm_ra pm_dec
          parallax v_rad obs chipName epoch includeDistortion =
        Except.error
          "You need to pass an ObservationMetaData with a rotSkyPos into pixelCoordsFromRaDec") := by
  obtain ⟨v1, hv1⟩ := validateInputs_ok hs "ra" "dec" "chipNameFromRaDecLSST"
  obtain ⟨v2, hv2⟩ := validateInputs_ok hs "ra" "dec" "pixelCoordsFromRaDecLSST"
  refine ⟨?_, ?_, ?_, ?_⟩
  · rintro rfl
    constructor
    · unfold chipNameFromRaDecLSSTRad
      rw [hv1]
    · unfold pixelCoordsFromRaDecLSSTRad validateInputsAndChipname
      rw [hv2]
  · rintro ep rfl rfl
    constructor
    · unfold chipNameFromRaDecLSSTRad
      rw [hv1]
    · unfold pixelCoordsFromRaDecLSSTRad validateInputsAndChipname
      rw [hv2]
  · rintro ep o rfl rfl hm
    obtain ⟨mjd, rot⟩ := o
    have hm' : mjd = none := hm
    subst hm'
    constructor
    · unfold chipNameFromRaDecLSSTRad
      rw [hv1]
      rfl
    · unfold pixelCoordsFromRaDecLSSTRad validateInputsAndChipname
      rw [hv2]
      rfl
  · rintro ep o mj rfl rfl hm hr
    obtain ⟨mjd, rot⟩ := o
    have hm' : mjd = some mj := hm
    have hr' : rot = none := hr
    subst hm'
    subst hr'
    constructor
    · unfold chipNameFromRaDecLSSTRad
      rw [hv1]
      rfl
    · unfold pixelCoordsFromRaDecLSSTRad validateInputsAndChipname
      rw [hv2]
      rfl

/-- C7 witness: scalar coordinates with no epoch fail with the epoch
message in both entry points. -/
theorem c7_witness :
    chipNameFromRaDecLSSTRad cmEx insideCamEx skyEx (PyArg.scalar 0) (PyArg.scalar 0)
        none none none none none none false =
      Except.error "You need to pass an epoch into chipName" ∧
    pixelCoordsFromRaDecLSSTRad cmEx insideCamEx skyEx pixEx (PyArg.scalar 0)
        (PyArg.scalar 0) none none none none none none none true =
      Except.error "You need to pass an epoch into pixelCoordsFromRaDec" :=
  (c7_missing_metadata cmEx insideCamEx skyEx pixEx (PyArg.scalar 0) (PyArg.scalar 0)
    none none none none none true false none none trivial).1 rfl

/-- C5: the cached index entry built for a detector has the centroid of
its four transformed corners as its center and the mean Euclidean
distance from that centroid to the corners as its radius (through the
same external square-root capability); and for every query point inside
the overall bound, the candidate list consists of exactly the detectors
whose squared center distance to the point is below the square of 1.1
times the radius. -/
theorem c5_index_and_filter :
    (∀ (sqrt : ℚ → ℚ) (ch : ChipCorners),
      (buildEntry sqrt ch).det = ch.det ∧
      ((buildEntry sqrt ch).xx, (buildEntry sqrt ch).yy) = specCentroid ch ∧
      (buildEntry sqrt ch).dp = specMeanDist sqrt ch) ∧
    (∀ (cm : CameraModel) (pts : List (ℚ × ℚ)) (i : Nat) (d : Detector),
      cm.cameraBox.containsPt (pts.getD i (0, 0)) = true →
      (d ∈ chipNameValidDets cm pts i ↔
        ∃ e ∈ cm.pupilMap, e.det = d ∧
          ((pts.getD i (0, 0)).1 - e.xx) ^ 2 + ((pts.getD i (0, 0)).2 - e.yy) ^ 2 <
            (11 / 10 * e.dp) ^ 2)) := by
  constructor
  · intro sqrt ch
    obtain ⟨dd, ⟨x0, y0⟩, ⟨x1, y1⟩, ⟨x2, y2⟩, ⟨x3, y3⟩⟩ := ch
    refine ⟨rfl, ?_, ?_⟩
    · show ((1 : ℚ) / 4 * (x0 + x1 + x2 + x3), (1 : ℚ) / 4 * (y0 + y1 + y2 + y3)) =
        ((x0 + x1 + x2 + x3) / 4, (y0 + y1 + y2 + y3) / 4)
      simp only [Prod.mk.injEq]
      constructor <;> ring
    · show (1 : ℚ) / 4 *
          (sqrt ((1 / 4 * (x0 + x1 + x2 + x3) - x0) ^ 2 +
                 (1 / 4 * (y0 + y1 + y2 + y3) - y0) ^ 2) +
           sqrt ((1 / 4 * (x0 + x1 + x2 + x3) - x1) ^ 2 +
                 (1 / 4 * (y0 + y1 + y2 + y3) - y1) ^ 2) +
           sqrt ((1 / 4 * (x0 + x1 + x2 + x3) - x2) ^ 2 +
                 (1 / 4 * (y0 + y1 + y2 + y3) - y2) ^ 2) +
           sqrt ((1 / 4 * (x0 + x1 + x2 + x3) - x3) ^ 2 +
                 (1 / 4 * (y0 + y1 + y2 + y3) - y3) ^ 2)) =
        (sqrt (((x0 + x1 + x2 + x3) / 4 - x0) ^ 2 + ((y0 + y1 + y2 + y3) / 4 - y0) ^ 2) +
         sqrt (((x0 + x1 + x2 + x3) / 4 - x1) ^ 2 + ((y0 + y1 + y2 + y3) / 4 - y1) ^ 2) +
         sqrt (((x0 + x1 + x2 + x3) / 4 - x2) ^ 2 + ((y0 + y1 + y2 + y3) / 4 - y2) ^ 2) +
         sqrt (((x0 + x1 + x2 + x3) / 4 - x3) ^ 2 + ((y0 + y1 + y2 + y3) / 4 - y3) ^ 2)) / 4
      have e0 : ((1 : ℚ) / 4 * (x0 + x1 + x2 + x3) - x0) ^ 2 +
          (1 / 4 * (y0 + y1 + y2 + y3) - y0) ^ 2 =
          ((x0 + x1 + x2 + x3) / 4 - x0) ^ 2 + ((y0 + y1 + y2 + y3) / 4 - y0) ^ 2 := by ring
      have e1 : ((1 : ℚ) / 4 * (x0 + x1 + x2 + x3) - x1) ^ 2 +
          (1 / 4 * (y0 + y1 + y2 + y3) - y1) ^ 2 =
          ((x0 + x1 + x2 + x3) / 4 - x1) ^ 2 + ((y0 + y1 + y2 + y3) / 4 - y1) ^ 2 := by ring
      have e2 : ((1 : ℚ) / 4 * (x0 + x1 + x2 + x3) - x2) ^ 2 +
          (1 / 4 * (y0 + y1 + y2 + y3) - y2) ^ 2 =
          ((x0 + x1 + x2 + x3) / 4 - x2) ^ 2 + ((y0 + y1 + y2 + y3) / 4 - y2) ^ 2 := by ring
      have e3 : ((1 : ℚ) / 4 * (x0 + x1 + x2 + x3) - x3) ^ 2 +
          (1 / 4 * (y0 + y1 + y2 + y3) - y3) ^ 2 =
          ((x0 + x1 + x2 + x3) / 4 - x3) ^ 2 + ((y0 + y1 + y2 + y3) / 4 - y3) ^ 2 := by ring
      rw [e0, e1, e2, e3]
      ring
  · intro cm pts i d hin
    simp only [chipNameValidDets]
    rw [if_pos hin]
    unfold candidateGuess
    simp only [List.mem_map, List.mem_filter, decide_eq_true_eq]
    constructor
    · rintro ⟨e, ⟨he, hlt⟩, hd⟩
      exact ⟨e, he, hd, hlt⟩
    · rintro ⟨e, he, hd, hlt⟩
      exact ⟨e, ⟨he, hlt⟩, hd⟩

/-- C5 witness: the unit-square chip with identity square root, and the
detector of the one-detector camera at the origin point. -/
theorem c5_witness :
    ((buildEntry id chEx).det = chEx.det ∧
     ((buildEntry id chEx).xx, (buildEntry id chEx).yy) = specCentroid chEx ∧
     (buildEntry id chEx).dp = specMeanDist id chEx) ∧
    (exDetA ∈ chipNameValidDets cmEx [(0, 0)] 0 ↔
      ∃ e ∈ cmEx.pupilMap, e.det = exDetA ∧
        (((0 : ℚ), (0 : ℚ)).1 - e.xx) ^ 2 + (((0 : ℚ), (0 : ℚ)).2 - e.yy) ^ 2 <
          (11 / 10 * e.dp) ^ 2) :=
  ⟨c5_index_and_filter.1 id chEx,
   c5_index_and_filter.2 cmEx [(0, 0)] 0 exDetA (by decide)⟩

theorem stringify_renderAcc_two {l : List String} (h2 : 2 ≤ l.length) :
    stringifyEntry (renderAcc l) = PyVal.pstr (pyStrList l) := by
  cases l with
  | nil => simp at h2
  | cons a t =>
    cases t with
    | nil => simp at h2
    | cons b t2 =>
      rw [renderAcc_cons_cons]
      rfl

/-- C10: the resolver output never contains a Python list value — list
accumulations are stringified inside the resolver on both return
paths — and a multi-eligible point contained in at least two candidate
detectors receives the Python string rendering of its detector-name
list. -/
theorem c10_multi_entries_stringified (M : Nat) (detLists : Nat → List Detector)
    (inside : Detector → Nat → Bool) (allowMult : Bool) (i : Nat) (hi : i < M)
    (hcbm : couldBeMultiple detLists allowMult i = true)
    (hnd : (detLists i).Nodup)
    (h2 : 2 ≤ ((detLists i).filter (fun d => inside d i)).length) :
    (∀ v ∈ findDetectorsListLSST M detLists inside allowMult, v.isPlist = false) ∧
    ∃ l, List.Perm l (((detLists i).filter (fun d => inside d i)).map (fun d => d.name)) ∧
      2 ≤ l.length ∧
      (findDetectorsListLSST M detLists inside allowMult).getD i PyVal.pnone =
        PyVal.pstr (pyStrList l) := by
  have hne : detLists i ≠ [] := by
    intro hc
    rw [hc] at h2
    simp at h2
  obtain ⟨hres, hccnd, hmem⟩ :=
    findDetectors_multi_char M detLists inside allowMult i hi hne hcbm
  have hperm := findDetectors_multi_perm M detLists inside allowMult i hi hne hcbm hnd
  constructor
  · intro v hv
    have hfo : findDetectorsListLSST M detLists inside allowMult =
        finalOut M (findRun M detLists inside allowMult).2.out :=
      (findRun_spec M detLists inside allowMult).2.1
    rw [hfo] at hv
    obtain ⟨j, rfl⟩ := mem_finalOut hv
    exact stringifyEntry_not_plist _
  · refine ⟨(ccFilter detLists inside i
        (findRun M detLists inside allowMult).2.checked).map (fun d => d.name),
      hperm.map _, ?_, ?_⟩
    · rw [List.length_map, hperm.length_eq, ← List.length_map _ (fun d => d.name)]
      rw [List.length_map]
      rw [← hperm.length_eq]
      rw [hperm.length_eq]
      exact h2
    · rw [hres]
      refine stringify_renderAcc_two ?_
      rw [List.length_map, hperm.length_eq]
      exact h2

/-- C10 witness: the one-point batch contained in the two wavefront
detectors. -/
theorem c10_witness :
    (∀ v ∈ findDetectorsListLSST 1 mLists mInside true, v.isPlist = false) ∧
    ∃ l, List.Perm l (((mLists 0).filter (fun d => mInside d 0)).map (fun d => d.name)) ∧
      2 ≤ l.length ∧
      (findDetectorsListLSST 1 mLists mInside true).getD 0 PyVal.pnone =
        PyVal.pstr (pyStrList l) :=
  c10_multi_entries_stringified 1 mLists mInside true 0 (by decide) (by decide)
    (by decide) (by decide)

theorem exhaustiveFind_getD (M : Nat) (detLists : Nat → List Detector)
    (inside : Detector → Nat → Bool) (allowMult : Bool) (i : Nat) (hi : i < M) :
    (exhaustiveFind M detLists inside allowMult).getD i PyVal.pnone =
      (if couldBeMultiple detLists allowMult i then
        stringifyEntry (renderAcc
          (((detLists i).filter (fun d => inside d i)).map (fun d => d.name)))
      else
        match (detLists i).filter (fun d => inside d i) with
        | [] => PyVal.pnone
        | d :: _ => PyVal.pstr d.name) := by
  unfold exhaustiveFind
  exact getD_map_range _ M i _ hi

/-- C1 counterexample: on the four-point batch `exLists` the resolver
and the per-point exhaustive tester disagree.  Point 1 is contained in
both of its candidates; the resolver answers with the first visited
one (A, visited while processing point 0), the exhaustive tester with
the first of the candidate list (B).  Point 3 is multi-eligible and
contained in both wavefront candidates; the resolver accumulates the
names in global visitation order (W2 first), the exhaustive tester in
candidate-list order (W1 first). -/
theorem c1_counterexample :
    findDetectorsListLSST 4 exLists exInside true ≠ exhaustiveFind 4 exLists exInside true ∧
    (findDetectorsListLSST 4 exLists exInside true).getD 1 PyVal.pnone = PyVal.pstr "A" ∧
    (exhaustiveFind 4 exLists exInside true).getD 1 PyVal.pnone = PyVal.pstr "B" ∧
    (findDetectorsListLSST 4 exLists exInside true).getD 3 PyVal.pnone =
      PyVal.pstr (pyStrList ["W2", "W1"]) ∧
    (exhaustiveFind 4 exLists exInside true).getD 3 PyVal.pnone =
      PyVal.pstr (pyStrList ["W1", "W2"]) := by
  refine ⟨?_, ?_, ?_, ?_, ?_⟩ <;> decide

/-- C1 (amended): for every batch, the Exact Resolver agrees with the
per-point exhaustive tester up to two deviations that the pre-filter
sharing forces: a point is NoMatch under one exactly when it is NoMatch
under the other; a point that is not multi-eligible is resolved to the
name of some containing candidate (the exhaustive tester takes the
first of the candidate list, the resolver the first visited); and a
multi-eligible point receives the serialized accumulation of a
permutation of the exhaustive name list (the resolver accumulates in
global visitation order instead of candidate-list order).  Candidate
lists are assumed duplicate-free, as the radius pre-filter guarantees. -/
theorem c1_resolver_vs_exhaustive (M : Nat) (detLists : Nat → List Detector)
    (inside : Detector → Nat → Bool) (allowMult : Bool)
    (hnd : ∀ j, (detLists j).Nodup) (i : Nat) (hi : i < M) :
    ((findDetectorsListLSST M detLists inside allowMult).getD i PyVal.pnone = PyVal.pnone ↔
      (exhaustiveFind M detLists inside allowMult).getD i PyVal.pnone = PyVal.pnone) ∧
    (couldBeMultiple detLists allowMult i = false →
      ∀ n, (findDetectorsListLSST M detLists inside allowMult).getD i PyVal.pnone =
          PyVal.pstr n →
        ∃ d ∈ (detLists i).filter (fun d => inside d i), n = d.name) ∧
    (couldBeMultiple detLists allowMult i = true → detLists i ≠ [] →
      ∃ l, List.Perm l (((detLists i).filter (fun d => inside d i)).map (fun d => d.name)) ∧
        (findDetectorsListLSST M detLists inside allowMult).getD i PyVal.pnone =
          stringifyEntry (renderAcc l) ∧
        (exhaustiveFind M detLists inside allowMult).getD i PyVal.pnone =
          stringifyEntry (renderAcc
            (((detLists i).filter (fun d => inside d i)).map (fun d => d.name)))) := by
  have hex := exhaustiveFind_getD M detLists inside allowMult i hi
  by_cases hdl : detLists i = []
  · have hres := findDetectors_empty_char M detLists inside allowMult i hi hdl
    have hexv : (exhaustiveFind M detLists inside allowMult).getD i PyVal.pnone =
        PyVal.pnone := by
      rw [hex, hdl]
      cases hbm : couldBeMultiple detLists allowMult i <;> simp [renderAcc, stringifyEntry]
    refine ⟨by rw [hres, hexv], ?_, ?_⟩
    · intro _ n hn
      rw [hres] at hn
      cases hn
    · intro _ hne
      exact absurd hdl hne
  · rcases Bool.eq_false_or_eq_true (couldBeMultiple detLists allowMult i) with hcbm | hcbm
    · -- multi-eligible point
      obtain ⟨hres, hccnd, hmem⟩ :=
        findDetectors_multi_char M detLists inside allowMult i hi hdl hcbm
      have hperm :=
        (findDetectors_multi_perm M detLists inside allowMult i hi hdl hcbm (hnd i)).map
          (fun d => d.name)
      have hexv : (exhaustiveFind M detLists inside allowMult).getD i PyVal.pnone =
          stringifyEntry (renderAcc
            (((detLists i).filter (fun d => inside d i)).map (fun d => d.name))) := by
        rw [hex, if_pos hcbm]
      refine ⟨?_, ?_, ?_⟩
      · rw [hres, hexv, stringifyEntry_eq_pnone_iff, stringifyEntry_eq_pnone_iff,
          renderAcc_eq_pnone_iff, renderAcc_eq_pnone_iff]
        constructor
        · intro h1
          have := hperm
          rw [h1] at this
          exact this.nil_eq.symm
        · intro h2
          have := hperm
          rw [h2] at this
          exact this.eq_nil
      · intro hc
        rw [hc] at hcbm
        cases hcbm
      · intro _ _
        exact ⟨_, hperm, by rw [hres], hexv⟩
    · -- not multi-eligible
      rcases findDetectors_single_char M detLists inside allowMult i hi hdl hcbm with
        ⟨hres, hcont⟩ | ⟨d, l, hcc, hres⟩
      · have hexv : (exhaustiveFind M detLists inside allowMult).getD i PyVal.pnone =
            PyVal.pnone := by
          rw [hex, if_neg (by rw [hcbm]; exact Bool.false_ne_true), hcont]
        refine ⟨by rw [hres, hexv], ?_, ?_⟩
        · intro _ n hn
          rw [hres] at hn
          cases hn
        · intro hc _
          rw [hc] at hcbm
          cases hcbm
      · have hdcc : d ∈ ccFilter detLists inside i
            (findRun M detLists inside allowMult).2.checked := by
          rw [hcc]
          exact List.mem_cons_self d l
        have hdcont : d ∈ (detLists i).filter (fun d => inside d i) := by
          obtain ⟨_, hdll, hins⟩ := mem_ccFilter.mp hdcc
          exact List.mem_filter.mpr ⟨hdll, by simpa using hins⟩
        have hcontne : (detLists i).filter (fun d => inside d i) ≠ [] :=
          List.ne_nil_of_mem hdcont
        obtain ⟨c, t, hct⟩ := List.exists_cons_of_ne_nil hcontne
        have hexv : (exhaustiveFind M detLists inside allowMult).getD i PyVal.pnone =
            PyVal.pstr c.name := by
          rw [hex, if_neg (by rw [hcbm]; exact Bool.false_ne_true), hct]
        refine ⟨?_, ?_, ?_⟩
        · rw [hres, hexv]
          constructor
          · intro h
            cases h
          · intro h
            cases h
        · intro _ n hn
          rw [hres] at hn
          cases hn
          exact ⟨d, hdcont, rfl⟩
        · intro hc _
          rw [hc] at hcbm
          cases hcbm

/-- C1 witness: the amended equivalence instantiated at point 3 of the
four-point counterexample batch. -/
theorem c1_witness :
    ((findDetectorsListLSST 4 exLists exInside true).getD 3 PyVal.pnone = PyVal.pnone ↔
      (exhaustiveFind 4 exLists exInside true).getD 3 PyVal.pnone = PyVal.pnone) ∧
    (couldBeMultiple exLists true 3 = false →
      ∀ n, (findDetectorsListLSST 4 exLists exInside true).getD 3 PyVal.pnone =
          PyVal.pstr n →
        ∃ d ∈ (exLists 3).filter (fun d => exInside d 3), n = d.name) ∧
    (couldBeMultiple exLists true 3 = true → exLists 3 ≠ [] →
      ∃ l, List.Perm l (((exLists 3).filter (fun d => exInside d 3)).map (fun d => d.name)) ∧
        (findDetectorsListLSST 4 exLists exInside true).getD 3 PyVal.pnone =
          stringifyEntry (renderAcc l) ∧
        (exhaustiveFind 4 exLists exInside true).getD 3 PyVal.pnone =
          stringifyEntry (renderAcc
            (((exLists 3).filter (fun d => exInside d 3)).map (fun d => d.name)))) :=
  c1_resolver_vs_exhaustive 4 exLists exInside true exLists_nodup 3 (by decide)

/-- C2 counterexample: the single point of `c2Lists` has exactly one
containing detector, the wavefront detector W1.  With
`allow_multiple_chips = True` the resolver answers with the bare name
(the Single form), not with the serialized one-element Multiple list:
the claimed Multiple result does not appear. -/
theorem c2_counterexample :
    (c2Lists 0).filter (fun d => c2Inside d 0) = [exDetW1] ∧
    exDetW1.dtype = DetType.wavefront ∧
    findDetectorsListLSST 1 c2Lists c2Inside true = [PyVal.pstr "W1"] ∧
    findDetectorsListLSST 1 c2Lists c2Inside true ≠
      [PyVal.pstr (pyStrList ["W1"])] := by
  refine ⟨?_, ?_, ?_, ?_⟩ <;> decide

/-- C2 (amended): for a query point all of whose containing detectors
are wavefront detectors, with at least one containing detector: with
multiple chips disallowed the answer is Single with the name of the
first-visited containing candidate (the head of the containing part of
the consideration order); with multiple chips allowed the answer covers
every containing candidate in visitation order — serialized as the
Python string of the name list when at least two candidates contain the
point, and collapsing to the same Single answer when exactly one
does. -/
theorem c2_overlap_point_lookup (M : Nat) (detLists : Nat → List Detector)
    (inside : Detector → Nat → Bool) (i : Nat) (hi : i < M)
    (hnd : (detLists i).Nodup)
    (hcont : (detLists i).filter (fun d => inside d i) ≠ [])
    (hwf : ∀ d ∈ (detLists i).filter (fun d => inside d i),
      d.dtype = DetType.wavefront) :
    (∃ d l, ccFilter detLists inside i (findRun M detLists inside false).2.checked = d :: l ∧
      d ∈ (detLists i).filter (fun d => inside d i) ∧
      (findDetectorsListLSST M detLists inside false).getD i PyVal.pnone =
        PyVal.pstr d.name) ∧
    (List.Perm (ccFilter detLists inside i (findRun M detLists inside true).2.checked)
        ((detLists i).filter (fun d => inside d i)) ∧
      (findDetectorsListLSST M detLists inside true).getD i PyVal.pnone =
        stringifyEntry (renderAcc
          ((ccFilter detLists inside i (findRun M detLists inside true).2.checked).map
            (fun d => d.name))) ∧
      (2 ≤ (ccFilter detLists inside i (findRun M detLists inside true).2.checked).length →
        (findDetectorsListLSST M detLists inside true).getD i PyVal.pnone =
          PyVal.pstr (pyStrList
            ((ccFilter detLists inside i (findRun M detLists inside true).2.checked).map
              (fun d => d.name)))) ∧
      (∀ d, ccFilter detLists inside i (findRun M detLists inside true).2.checked = [d] →
        (findDetectorsListLSST M detLists inside true).getD i PyVal.pnone =
          PyVal.pstr d.name)) := by
  have hne : detLists i ≠ [] := by
    intro hc
    rw [hc] at hcont
    exact hcont rfl
  obtain ⟨c, t, hct⟩ := List.exists_cons_of_ne_nil hcont
  have hcmem : c ∈ (detLists i).filter (fun d => inside d i) := by
    rw [hct]
    exact List.mem_cons_self c t
  have hcl : c ∈ detLists i := (List.mem_filter.mp hcmem).1
  constructor
  · have hcbmF : couldBeMultiple detLists false i = false := rfl
    rcases findDetectors_single_char M detLists inside false i hi hne hcbmF with
      ⟨_, hcont0⟩ | ⟨d, l, hcc, hres⟩
    · exact absurd hcont0 hcont
    · have hdcont : d ∈ (detLists i).filter (fun d => inside d i) := by
        have hdcc : d ∈ ccFilter detLists inside i
            (findRun M detLists inside false).2.checked := by
          rw [hcc]
          exact List.mem_cons_self d l
        obtain ⟨_, hdll, hins⟩ := mem_ccFilter.mp hdcc
        exact List.mem_filter.mpr ⟨hdll, by simpa using hins⟩
      exact ⟨d, l, hcc, hdcont, hres⟩
  · have hcbmT : couldBeMultiple detLists true i = true := by
      simp only [couldBeMultiple, Bool.true_and]
      rw [List.any_eq_true]
      refine ⟨c, hcl, ?_⟩
      rw [hwf c hcmem]
      rfl
    obtain ⟨hres, hccnd, hmem⟩ :=
      findDetectors_multi_char M detLists inside true i hi hne hcbmT
    have hperm := findDetectors_multi_perm M detLists inside true i hi hne hcbmT hnd
    refine ⟨hperm, hres, ?_, ?_⟩
    · intro h2
      rw [hres]
      refine stringify_renderAcc_two ?_
      rw [List.length_map]
      exact h2
    · intro d hccd
      rw [hres, hccd]
      rfl

/-- C2 witness: the one-point batch contained in both wavefront
detectors of `mLists`. -/
theorem c2_witness :
    (∃ d l, ccFilter mLists mInside 0 (findRun 1 mLists mInside false).2.checked = d :: l ∧
      d ∈ (mLists 0).filter (fun d => mInside d 0) ∧
      (findDetectorsListLSST 1 mLists mInside false).getD 0 PyVal.pnone =
        PyVal.pstr d.name) ∧
    (List.Perm (ccFilter mLists mInside 0 (findRun 1 mLists mInside true).2.checked)
        ((mLists 0).filter (fun d => mInside d 0)) ∧
      (findDetectorsListLSST 1 mLists mInside true).getD 0 PyVal.pnone =
        stringifyEntry (renderAcc
          ((ccFilter mLists mInside 0 (findRun 1 mLists mInside true).2.checked).map
            (fun d => d.name))) ∧
      (2 ≤ (ccFilter mLists mInside 0 (findRun 1 mLists mInside true).2.checked).length →
        (findDetectorsListLSST 1 mLists mInside true).getD 0 PyVal.pnone =
          PyVal.pstr (pyStrList
            ((ccFilter mLists mInside 0 (findRun 1 mLists mInside true).2.checked).map
              (fun d => d.name)))) ∧
      (∀ d, ccFilter mLists mInside 0 (findRun 1 mLists mInside true).2.checked = [d] →
        (findDetectorsListLSST 1 mLists mInside true).getD 0 PyVal.pnone =
          PyVal.pstr d.name)) :=
  c2_overlap_point_lookup 1 mLists mInside 0 (by decide) (by decide) (by decide)
    (by decide)

/-- C6 counterexample: a scalar coordinate pair passed to
`chipNameFromPupilCoordsLSST` is accepted but the function returns a
length-one array — it has no scalar unwrapping path — so the result is
never a scalar. -/
theorem c6_counterexample :
    chipNameFromPupilCoordsLSSTCall cmEx insideCamEx (PyArg.scalar 20) (PyArg.scalar 20)
        false = Except.ok (PyArg.array [PyVal.pnone]) ∧
    ∀ v : PyVal, chipNameFromPupilCoordsLSSTCall cmEx insideCamEx (PyArg.scalar 20)
        (PyArg.scalar 20) false ≠ Except.ok (PyArg.scalar v) := by
  have h1 : chipNameFromPupilCoordsLSSTCall cmEx insideCamEx (PyArg.scalar 20)
      (PyArg.scalar 20) false = Except.ok (PyArg.array [PyVal.pnone]) := by decide
  refine ⟨h1, ?_⟩
  intro v h
  rw [h1] at h
  injection h with h2
  cases h2

/-- C6 (amended): a single scalar coordinate pair is accepted by every
entry point of the source; `_chipNameFromRaDecLSST` and its degree
wrapper unwrap the result and return a scalar, while
`chipNameFromPupilCoordsLSST` returns a length-one array for scalar
input.  (The pixel lookup delegates its result shaping to the external
`pixelCoordsFromPupilCoords` capability.) -/
theorem c6_scalar_shapes (cm : CameraModel) (insideCam : Detector → ℚ × ℚ → Bool)
    (skyToPupil : SkyToPupil) (radians radiansFromArcsec : ℚ → ℚ) (x y : ℚ)
    (pm_ra pm_dec parallax v_rad : Option ℚ) (mj rot ep : ℚ) (allowMult : Bool) :
    (∃ v, chipNameFromRaDecLSSTRad cm insideCam skyToPupil (PyArg.scalar x)
        (PyArg.scalar y) pm_ra pm_dec parallax v_rad (some ⟨some mj, some rot⟩)
        (some ep) allowMult = Except.ok (PyArg.scalar v)) ∧
    (∃ v, chipNameFromRaDecLSSTDeg cm insideCam skyToPupil radians radiansFromArcsec
        (PyArg.scalar x) (PyArg.scalar y) pm_ra pm_dec parallax v_rad
        (some ⟨some mj, some rot⟩) (some ep) allowMult = Except.ok (PyArg.scalar v)) ∧
    (∃ l, chipNameFromPupilCoordsLSSTCall cm insideCam (PyArg.scalar x) (PyArg.scalar y)
        allowMult = Except.ok (PyArg.array l) ∧ l.length = 1) := by
  refine ⟨⟨_, rfl⟩, ⟨_, rfl⟩, ⟨_, rfl, ?_⟩⟩
  exact findDetectors_length 1 _ _ allowMult

end LsstCameraUtils
